import Mathlib

/-!
Verification development for the workflow specification validation and
publication engine of the kestra-agent repository.

The TypeScript sources are shallowly embedded:
* `src/src/mastra/utils/yaml-validator.ts` — `validateAndFixKestraYaml`,
  `applyCommonFixes`, and the zod schema `kestraFlowSchema`;
* `src/src/mastra/tools/create-flow-tool.ts` — the identifier resolution,
  the single-conflict-retry publication logic (`attemptCreateFlow` and the
  surrounding retry block);
* `src/unnamed/part_008` — the two-store document source selection of the
  variant create tool (RuntimeContext, then the KestraFlowContext
  singleton, then the direct `flowYaml` parameter).

Parsed YAML/JSON values are modelled by the inductive `JVal`.  JavaScript
truthiness, property reads (`obj.k`), property writes (`obj.k = v`),
`parseInt`, and template-literal interpolation are modelled explicitly.
Property writes in the embedding occur only on mappings (`jobj`), which is
the class of values the theorems quantify over; this matches the class of
inputs on which the JavaScript runs without a `TypeError`.
`yaml.stringify` followed by `yaml.parse` of a plain value round-trips,
so the re-parse-after-fix step of the source is modelled as succeeding.
-/

namespace Kestra

/-- Model of a parsed YAML/JSON document value (the `any` produced by
`yaml.parse`).  Numbers are modelled as integers: every numeric literal
relevant to the engine (`retry` counts) is an integer. -/
inductive JVal where
  | jnull
  | jbool (b : Bool)
  | jnum (n : Int)
  | jstr (s : String)
  | jarr (elems : List JVal)
  | jobj (fields : List (String × JVal))
deriving Repr

open JVal

/-- JavaScript truthiness of a value: `null`, `false`, `0` and `""` are
falsy; arrays and objects (even empty) are truthy. -/
def jTruthy : JVal → Bool
  | jnull => false
  | jbool b => b
  | jnum n => n != 0
  | jstr s => s != ""
  | jarr _ => true
  | jobj _ => true

/-- Truthiness of a possibly-`undefined` value (`none` models
`undefined`). -/
def oTruthy : Option JVal → Bool
  | some v => jTruthy v
  | none => false

/-- First binding of a key in a property list. -/
def getFields : List (String × JVal) → String → Option JVal
  | [], _ => none
  | (k', v) :: rest, k => if k' = k then some v else getFields rest k

/-- Property read `obj.k`: a lookup on mappings, `undefined` otherwise. -/
def getField : JVal → String → Option JVal
  | jobj fields, k => getFields fields k
  | _, _ => none

/-- Property write on an association list: overwrite the first binding of
the key in place, or append a fresh binding (JavaScript preserves property
insertion order). -/
def setFields (fields : List (String × JVal)) (k : String) (v : JVal) : List (String × JVal) :=
  match fields with
  | [] => [(k, v)]
  | (k', v') :: rest => if k' = k then (k, v) :: rest else (k', v') :: setFields rest k v

/-- Property write `obj.k = v`.  Only mappings are written to in the
modelled document class (see the header comment). -/
def setField (y : JVal) (k : String) (v : JVal) : JVal :=
  match y with
  | jobj fields => jobj (setFields fields k v)
  | other => other

def isArr : JVal → Bool
  | jarr _ => true
  | _ => false

def isObjV : JVal → Bool
  | jobj _ => true
  | _ => false

/-- A single quote character, used in the fix messages of the source. -/
def sq (s : String) : String := "\x27" ++ s ++ "\x27"

mutual
/-- JavaScript string coercion `String(v)` of a defined value, as used in
template literals. -/
def jsShow : JVal → String
  | jnull => "null"
  | jbool b => cond b "true" "false"
  | jnum n => toString n
  | jstr s => s
  | jarr es => jsShowList es
  | jobj _ => "[object Object]"

/-- Model of `Array.prototype.join(",")`: `null` elements render empty. -/
def jsShowList : List JVal → String
  | [] => ""
  | [v] => cond (v matches jnull) "" (jsShow v)
  | v :: rest => (cond (v matches jnull) "" (jsShow v)) ++ "," ++ jsShowList rest
end

/-- Template-literal interpolation of a possibly-`undefined` value. -/
def jsShowO : Option JVal → String
  | none => "undefined"
  | some v => jsShow v

/-- Model of `parseInt(s, 10)`: skip leading whitespace, optional sign, then the
longest prefix of decimal digits; `none` models `NaN`. -/
def parseIntJS (s : String) : Option Int :=
  let cs := s.toList.dropWhile (fun c => c = ' ' ∨ c = '\t' ∨ c = '\n' ∨ c = '\r')
  let signRest : Int × List Char :=
    match cs with
    | '-' :: tl => (-1, tl)
    | '+' :: tl => (1, tl)
    | other => (1, other)
  let digits := signRest.2.takeWhile Char.isDigit
  if digits.isEmpty then none
  else some (signRest.1 * Int.ofNat (digits.foldl (fun acc c => acc * 10 + (c.toNat - '0'.toNat)) 0))

/-! ### JSON.parse (platform builtin, modelled)

The env fix of `applyCommonFixes` calls `JSON.parse` on strings that look
like JSON objects.  A recursive-descent parser over the JSON grammar with
explicit fuel models it (integers only; a numeric or escape form the model
does not cover makes the parse fail, which the source handles identically
to a thrown `SyntaxError` — the string is wrapped as `{VALUE: s}`). -/

def jsonWs (c : Char) : Bool := c = ' ' ∨ c = '\t' ∨ c = '\n' ∨ c = '\r'

def jsonSkipWs (cs : List Char) : List Char := cs.dropWhile jsonWs

/-- Scan a JSON string body after the opening quote. -/
def jsonScanString : List Char → Option (List Char × List Char)
  | [] => none
  | '"' :: rest => some ([], rest)
  | '\\' :: e :: rest =>
    (match e with
     | '"' => some '"'
     | '\\' => some '\\'
     | '/' => some '/'
     | 'n' => some '\n'
     | 't' => some '\t'
     | 'r' => some '\r'
     | _ => none).bind fun c =>
      (jsonScanString rest).map fun (p : List Char × List Char) => (c :: p.1, p.2)
  | c :: rest =>
    if c = '"' ∨ c = '\\' then none
    else (jsonScanString rest).map fun p => (c :: p.1, p.2)

mutual
def jsonParseVal : Nat → List Char → Option (JVal × List Char)
  | 0, _ => none
  | Nat.succ fuel, cs =>
    match jsonSkipWs cs with
    | '\x7b' :: rest => (jsonParseMembers fuel (jsonSkipWs rest) true).map fun p => (jobj p.1, p.2)
    | '[' :: rest => (jsonParseElems fuel (jsonSkipWs rest) true).map fun p => (jarr p.1, p.2)
    | '"' :: rest => (jsonScanString rest).map fun p => (jstr (String.mk p.1), p.2)
    | 't' :: 'r' :: 'u' :: 'e' :: rest => some (jbool true, rest)
    | 'f' :: 'a' :: 'l' :: 's' :: 'e' :: rest => some (jbool false, rest)
    | 'n' :: 'u' :: 'l' :: 'l' :: rest => some (jnull, rest)
    | other =>
      let signRest : Int × List Char :=
        match other with
        | '-' :: tl => (-1, tl)
        | tl => (1, tl)
      let digits := signRest.2.takeWhile Char.isDigit
      if digits.isEmpty then none
      else
        some (jnum (signRest.1 * Int.ofNat (digits.foldl (fun acc c => acc * 10 + (c.toNat - '0'.toNat)) 0)),
              signRest.2.dropWhile Char.isDigit)

/-- Members of a JSON object; `first` is true before the first member. -/
def jsonParseMembers : Nat → List Char → Bool → Option (List (String × JVal) × List Char)
  | 0, _, _ => none
  | Nat.succ _, '\x7d' :: rest, true => some ([], rest)
  | Nat.succ fuel, cs, first =>
    let cs' := if first then cs else
      match cs with
      | ',' :: rest => jsonSkipWs rest
      | _ => []
    if ¬ first ∧ cs'.isEmpty ∧ ¬ (cs.headD ' ' = ',') then none
    else
      match cs' with
      | '"' :: rest =>
        (jsonScanString rest).bind fun kp =>
          match jsonSkipWs kp.2 with
          | ':' :: vrest =>
            (jsonParseVal fuel vrest).bind fun vp =>
              match jsonSkipWs vp.2 with
              | '\x7d' :: rest' => some ([(String.mk kp.1, vp.1)], rest')
              | rest' =>
                (jsonParseMembers fuel rest' false).map fun mp =>
                  ((String.mk kp.1, vp.1) :: mp.1, mp.2)
          | _ => none
      | _ => none

/-- Elements of a JSON array; `first` is true before the first element. -/
def jsonParseElems : Nat → List Char → Bool → Option (List JVal × List Char)
  | 0, _, _ => none
  | Nat.succ _, ']' :: rest, true => some ([], rest)
  | Nat.succ fuel, cs, first =>
    let cs' := if first then cs else
      match cs with
      | ',' :: rest => jsonSkipWs rest
      | _ => []
    if ¬ first ∧ cs'.isEmpty ∧ ¬ (cs.headD ' ' = ',') then none
    else
      (jsonParseVal fuel cs').bind fun vp =>
        match jsonSkipWs vp.2 with
        | ']' :: rest' => some ([vp.1], rest')
        | rest' => (jsonParseElems fuel rest' false).map fun ep => (vp.1 :: ep.1, ep.2)
end

/-- Model of `JSON.parse` on a string expected to denote a JSON object (the env fix
only calls it behind a guard that the trimmed string is brace-delimited,
so a successful parse is an object).  Returns the parsed fields. -/
def jsonParseObjFields (s : String) : Option (List (String × JVal)) :=
  match jsonParseVal (s.length + 1) s.toList with
  | some (jobj fields, rest) => if (jsonSkipWs rest).isEmpty then some fields else none
  | _ => none

/-! ### The zod schema `kestraFlowSchema` (yaml-validator.ts lines 18-27)

`safeParse` failures are turned into diagnostic strings by the source as
`` `${err.path.join(".")}: ${err.message}` `` (lines 53-57).  The issue
order follows zod: schema keys in declaration order (`id`, `namespace`,
`tasks`); for arrays the minimum-length issue precedes element issues. -/

/-- zod's name for the received type of a value. -/
def zreceived : JVal → String
  | jnull => "null"
  | jbool _ => "boolean"
  | jnum _ => "number"
  | jstr _ => "string"
  | jarr _ => "array"
  | jobj _ => "object"

/-- Issues of a required nonempty-string field at path `path`. -/
def zStringField (path : String) (emptyMsg : String) : Option JVal → List String
  | none => [path ++ ": Required"]
  | some (jstr s) => if s = "" then [path ++ ": " ++ emptyMsg] else []
  | some v => [path ++ ": Expected string, received " ++ zreceived v]

/-- Issues of one element of `tasks` against
`z.object({id, type}).passthrough()`. -/
def taskSchemaErrors (i : Nat) (t : JVal) : List String :=
  match t with
  | jobj _ =>
    zStringField ("tasks." ++ toString i ++ ".id") "Task ID must not be empty" (getField t "id") ++
    zStringField ("tasks." ++ toString i ++ ".type") "Task type must not be empty" (getField t "type")
  | _ => ["tasks." ++ toString i ++ ": Expected object, received " ++ zreceived t]

def taskListErrors (i : Nat) : List JVal → List String
  | [] => []
  | t :: ts => taskSchemaErrors i t ++ taskListErrors (i + 1) ts

/-- All diagnostics produced by `kestraFlowSchema.safeParse`, in order, as
pushed into `result.errors`. -/
def schemaErrors (v : JVal) : List String :=
  match v with
  | jobj _ =>
    zStringField "id" "Flow ID must not be empty" (getField v "id") ++
    zStringField "namespace" "Namespace must not be empty" (getField v "namespace") ++
    (match getField v "tasks" with
     | none => ["tasks: Required"]
     | some (jarr ts) =>
       (if ts.isEmpty then ["tasks: At least one task is required"] else []) ++
       taskListErrors 0 ts
     | some w => ["tasks: Expected array, received " ++ zreceived w])
  | _ => [": Expected object, received " ++ zreceived v]

/-! ### `applyCommonFixes` (yaml-validator.ts lines 99-191)

The source mutates the parsed object in place and returns
`{modified, fixesMade}`; the embedding threads the value explicitly and
returns the new value together with `fixesMade`.  In the source every
`fixesMade.push` is paired with `modified = true` and `modified` is set
nowhere else, so `modified` is exactly the non-emptiness of `fixesMade`.

The passes appear in source order: default namespace (lines 107-112),
bare `retry` rewrite (lines 114-130), missing `tasks` (lines 132-137),
non-array `tasks` wrap (lines 139-147), missing task ids (lines 149-159),
string `env` (lines 161-188).  Note the retry rewrite runs *before* the
wrap, so a bare retry inside a non-array `tasks` object is not rewritten
on the run that wraps it. -/

/-- The normalized retry object `{type: "constant", maxAttempt: n}`. -/
def retryObj (n : Int) : JVal :=
  jobj [("type", jstr "constant"), ("maxAttempt", jnum n)]

/-- Fix 1 (lines 107-112): default namespace. -/
def fixNamespacePass (y : JVal) : JVal × List String :=
  if oTruthy (getField y "namespace") then (y, [])
  else (setField y "namespace" (jstr "company.team"),
        ["Added missing namespace: " ++ sq "company.team"])

/-- Body of the retry loop (lines 117-128).  `parseInt(String(task.retry), 10)`
on an integer recovers the integer itself. -/
def fixTaskRetry (t : JVal) : JVal × List String :=
  let msg := "Fixed task " ++ sq (jsShowO (getField t "id")) ++
             ": Converted simple retry value to proper object format"
  match getField t "retry" with
  | some (jnum n) => (setField t "retry" (retryObj n), [msg])
  | some (jstr s) =>
    (setField t "retry" (retryObj (match parseIntJS s with
                                   | some k => k
                                   | none => 1)), [msg])
  | _ => (t, [])

def fixRetryList : List JVal → List JVal × List String
  | [] => ([], [])
  | t :: ts =>
    let r := fixTaskRetry t
    let rs := fixRetryList ts
    (r.1 :: rs.1, r.2 ++ rs.2)

/-- Fix 2 (lines 114-130): rewrite bare retries, only when `tasks` is
already an array (`yamlObject.tasks && Array.isArray(yamlObject.tasks)`). -/
def fixTasksRetryPass (y : JVal) : JVal × List String :=
  match getField y "tasks" with
  | some (jarr ts) =>
    let rs := fixRetryList ts
    (setField y "tasks" (jarr rs.1), rs.2)
  | _ => (y, [])

/-- Fix 3 (lines 132-137): a falsy `tasks` becomes the empty array. -/
def fixTasksExistPass (y : JVal) : JVal × List String :=
  if oTruthy (getField y "tasks") then (y, [])
  else (setField y "tasks" (jarr []), ["Added missing tasks array"])

/-- Fix 4 (lines 139-147): a truthy non-array `tasks` of type `"object"`
(that is, a mapping) is wrapped as a one-element array. -/
def fixTasksArrayPass (y : JVal) : JVal × List String :=
  match getField y "tasks" with
  | some (jobj tfs) =>
    (setField y "tasks" (jarr [jobj tfs]), ["Converted tasks object to array format"])
  | _ => (y, [])

/-- Body of the task-id loop (lines 151-158); the message interpolates the
freshly assigned id. -/
def fixTaskId (i : Nat) (t : JVal) : JVal × List String :=
  if oTruthy (getField t "id") then (t, [])
  else
    let newId := "task-" ++ toString (i + 1)
    (setField t "id" (jstr newId), ["Added missing task ID: " ++ sq newId])

def fixIdList (i : Nat) : List JVal → List JVal × List String
  | [] => ([], [])
  | t :: ts =>
    let r := fixTaskId i t
    let rs := fixIdList (i + 1) ts
    (r.1 :: rs.1, r.2 ++ rs.2)

/-- Fix 5 (lines 149-159): synthesize missing task ids. -/
def fixTaskIdsPass (y : JVal) : JVal × List String :=
  match getField y "tasks" with
  | some (jarr ts) =>
    let rs := fixIdList 0 ts
    (setField y "tasks" (jarr rs.1), rs.2)
  | _ => (y, [])

/-- Body of the env loop (lines 163-187): a truthy string `env` that looks
like a JSON object is parsed, otherwise (or when parsing throws) it is
wrapped as `{VALUE: s}`. -/
def fixTaskEnv (t : JVal) : JVal × List String :=
  match getField t "env" with
  | some (jstr s) =>
    if s = "" then (t, [])
    else if s.trim.startsWith "\x7b" && s.trim.endsWith "\x7d" then
      match jsonParseObjFields s with
      | some fields =>
        (setField t "env" (jobj fields),
         ["Fixed task " ++ sq (jsShowO (getField t "id")) ++
          ": Converted env from string to object format"])
      | none =>
        (setField t "env" (jobj [("VALUE", jstr s)]),
         ["Fixed task " ++ sq (jsShowO (getField t "id")) ++
          ": Converted env string to object with VALUE key"])
    else
      (setField t "env" (jobj [("VALUE", jstr s)]),
       ["Fixed task " ++ sq (jsShowO (getField t "id")) ++
        ": Converted env string to object with VALUE key"])
  | _ => (t, [])

def fixEnvList : List JVal → List JVal × List String
  | [] => ([], [])
  | t :: ts =>
    let r := fixTaskEnv t
    let rs := fixEnvList ts
    (r.1 :: rs.1, r.2 ++ rs.2)

/-- Fix 6 (lines 161-188): normalize string env values. -/
def fixTaskEnvPass (y : JVal) : JVal × List String :=
  match getField y "tasks" with
  | some (jarr ts) =>
    let rs := fixEnvList ts
    (setField y "tasks" (jarr rs.1), rs.2)
  | _ => (y, [])

/-- The function `applyCommonFixes` (lines 99-191): the guard on a falsy document, then
the six passes in source order; fix messages accumulate in pass order. -/
def applyCommonFixes (y : JVal) : JVal × List String :=
  if !jTruthy y then (y, [])
  else
    let r1 := fixNamespacePass y
    let r2 := fixTasksRetryPass r1.1
    let r3 := fixTasksExistPass r2.1
    let r4 := fixTasksArrayPass r3.1
    let r5 := fixTaskIdsPass r4.1
    let r6 := fixTaskEnvPass r5.1
    (r6.1, r1.2 ++ r2.2 ++ r3.2 ++ r4.2 ++ r5.2 ++ r6.2)

/-! ### `validateAndFixKestraYaml` (yaml-validator.ts lines 35-91) -/

/-- The result record of the validator (interface at lines 7-13).
`parsedYaml` and `fixedYaml` hold parsed models; in the source
`parsedYaml` is the object mutated in place by `applyCommonFixes` and
`fixedYaml` its serialization, produced only when a fix was applied. -/
structure YamlValidationResult where
  isValid : Bool
  parsedYaml : Option JVal
  errors : List String
  fixedYaml : Option JVal
  fixesMade : List String
deriving Repr

/-- The function `validateAndFixKestraYaml`: the argument is the outcome of
`yaml.parse` (`none` models a thrown syntax error, whose early return is
lines 44-49).  Structure errors come from the zod schema (lines 52-57),
fixes from `applyCommonFixes` (lines 60-66), `fixedYaml` is produced and
re-parses successfully (lines 69-79), and `isValid` is set whenever no
error accumulated or a fix was applied (lines 81-84). -/
def validateAndFixKestraYaml (parseOutcome : Option JVal) : YamlValidationResult :=
  match parseOutcome with
  | none =>
    { isValid := false, parsedYaml := none, errors := ["YAML syntax error"],
      fixedYaml := none, fixesMade := [] }
  | some v =>
    let errors := schemaErrors v
    let fixes := applyCommonFixes v
    let yamlModified := !fixes.2.isEmpty
    { isValid := errors.isEmpty || yamlModified
      parsedYaml := some fixes.1
      errors := errors
      fixedYaml := if yamlModified then some fixes.1 else none
      fixesMade := fixes.2 }

/-! ### Identifier resolution (create-flow-tool.ts lines 213-240)

The slug of a purpose hint: `toLowerCase()`, then the global replacement
of `[^a-z0-9]+` runs by `"-"`, then trimming of leading/trailing dash
runs (`^-+|-+$`).  Lower-casing is modelled for ASCII, the identifier
alphabet of the engine. -/

def slugChar (c : Char) : Bool := ('a' ≤ c && c ≤ 'z') || ('0' ≤ c && c ≤ '9')

/-- Replace every maximal run of non-slug characters by a single dash. -/
def collapseRuns : List Char → List Char
  | [] => []
  | c :: rest =>
    if slugChar c then c :: collapseRuns rest
    else '-' :: collapseRuns (rest.dropWhile (fun d => !slugChar d))
termination_by l => l.length
decreasing_by
  · simp only [List.length_cons]; omega
  · have h := (List.dropWhile_suffix (l := rest) (fun d => !slugChar d)).length_le
    simp only [List.length_cons]; omega

/-- Strip leading and trailing dashes. -/
def trimDashes (cs : List Char) : List Char :=
  ((cs.dropWhile (fun c => c = '-')).reverse.dropWhile (fun c => c = '-')).reverse

def slugify (s : String) : String :=
  String.mk (trimDashes (collapseRuns (s.toList.map Char.toLower)))

/-- Truthiness of an optional string parameter (`undefined` and `""` are
falsy). -/
def sTruthy : Option String → Bool
  | some s => s != ""
  | none => false

/-- The flow id determination of `createFlowTool.execute` (lines 215-240):
an explicitly given (truthy) `flowId` is used as is; otherwise the base is
the slugified purpose hint if one is given, else the document id, else the
literal `"flow"`, suffixed by `-<timestamp base36>-<random>`.  The
timestamp and random suffix are parameters of the model. -/
def resolveFlowId (flowId flowPurpose docId : Option String)
    (timestamp randomSuffix : String) : String :=
  match flowId with
  | some fid =>
    if fid ≠ "" then fid
    else resolveGeneratedId flowPurpose docId timestamp randomSuffix
  | none => resolveGeneratedId flowPurpose docId timestamp randomSuffix
where
  /-- The `else` branch of lines 223-240. -/
  resolveGeneratedId (flowPurpose docId : Option String)
      (timestamp randomSuffix : String) : String :=
    let baseId :=
      if sTruthy flowPurpose then slugify (flowPurpose.getD "")
      else if sTruthy docId then docId.getD "" else "flow"
    baseId ++ "-" ++ timestamp ++ "-" ++ randomSuffix

/-! ### The remote publisher (create-flow-tool.ts lines 251-351)

The remote engine's behaviour on one `POST /api/v1/flows` call is one of:
a success status, a 409 conflict, or another failure carrying a message
(`error.message`).  A publication run consumes at most two such outcomes;
the second is consulted only on a conflict retry. -/

inductive ApiOutcome where
  | success
  | conflict409
  | failure (msg : String)
deriving Repr, DecidableEq

/-- Result shape of the inner helper `attemptCreateFlow`
(lines 253-299). -/
structure AttemptResult where
  success : Bool
  conflict : Bool
  error : Option String
deriving Repr, DecidableEq

def attemptCreateFlow (o : ApiOutcome) (attemptFlowId : String) : AttemptResult :=
  match o with
  | .success => { success := true, conflict := false, error := none }
  | .conflict409 =>
    { success := false, conflict := true,
      error := some ("Flow ID " ++ sq attemptFlowId ++ " already exists") }
  | .failure m => { success := false, conflict := false, error := some m }

/-- Model of `yaml.replace(/^id:\s*.*$/m, "id: " + newId)`: rewrite the first line
that starts with `id:` (the regex matches exactly those lines, whole). -/
def replaceIdLine (yaml newId : String) : String :=
  String.intercalate "\n" (go (yaml.splitOn "\n"))
where
  go : List String → List String
    | [] => []
    | l :: ls => if l.startsWith "id:" then ("id: " ++ newId) :: ls else l :: go ls

/-- Outcome record of the publication block, keeping the fields returned
by the tool (lines 320-351) plus the trace of `(yaml, attemptId)` pairs
actually POSTed. -/
structure CreateFlowOutcome where
  success : Bool
  flowId : Option String
  namespace_ : String
  status : String
  errors : List String
  flowUrl : Option String
  submitted : List (String × String)
deriving Repr, DecidableEq

/-- Default Kestra UI base URL (line 338). -/
def kestraUiUrl : String := "http://localhost:8080"

/-- The publication block of `createFlowTool.execute` (lines 301-351):
first attempt with the resolved id; on a conflict, patch the document
with `generateRandomFlowId()` (modelled by the `randomId` parameter) and
retry exactly once; afterwards report failure or success.  On success the
source returns `finalFlowId` — the pre-retry id — as `flowId` and in
`flowUrl`, even when the flow was created on the retry under `randomId`
(lines 343-351). -/
def createFlowPublish (updatedYaml finalFlowId finalNamespace randomId : String)
    (o1 o2 : ApiOutcome) : CreateFlowOutcome :=
  let r1 := attemptCreateFlow o1 finalFlowId
  if !r1.success && r1.conflict then
    let retryYaml := replaceIdLine updatedYaml randomId
    let errs := [r1.error.getD "", "Trying again with a random ID: " ++ randomId]
    let r2 := attemptCreateFlow o2 randomId
    if !r2.success then
      { success := false, flowId := none, namespace_ := finalNamespace,
        status := "API_ERROR", errors := errs ++ [r2.error.getD ""],
        flowUrl := none,
        submitted := [(updatedYaml, finalFlowId), (retryYaml, randomId)] }
    else
      { success := true, flowId := some finalFlowId, namespace_ := finalNamespace,
        status := "CREATED", errors := errs,
        flowUrl := some (kestraUiUrl ++ "/ui/flows/" ++ finalNamespace ++ "/" ++ finalFlowId),
        submitted := [(updatedYaml, finalFlowId), (retryYaml, randomId)] }
  else if !r1.success then
    { success := false, flowId := none, namespace_ := finalNamespace,
      status := "API_ERROR", errors := [r1.error.getD ""], flowUrl := none,
      submitted := [(updatedYaml, finalFlowId)] }
  else
    { success := true, flowId := some finalFlowId, namespace_ := finalNamespace,
      status := "CREATED", errors := [],
      flowUrl := some (kestraUiUrl ++ "/ui/flows/" ++ finalNamespace ++ "/" ++ finalFlowId),
      submitted := [(updatedYaml, finalFlowId)] }

/-! ### Document source selection of the two-store variant
(part_008 lines 78-141)

The variant tool reads the document from, in order: the per-call
`RuntimeContext` (when the execution context carries one), the singleton
`KestraFlowContext` (copying a found value into the `RuntimeContext`),
and finally the direct `flowYaml` parameter (copying a used direct input
into both stores). -/

structure CtxState where
  rcAvailable : Bool
  rcFlowYaml : Option String
  kfcFlowYaml : Option String
deriving Repr, DecidableEq

structure YamlSelection where
  yamlContent : Option String
  state : CtxState
deriving Repr, DecidableEq

def selectYamlSource (st : CtxState) (inputFlowYaml : Option String) : YamlSelection :=
  -- lines 82-93: read the RuntimeContext when available
  let y1 : Option String := if st.rcAvailable then st.rcFlowYaml else none
  -- lines 97-117: otherwise read the KestraFlowContext, copying a truthy
  -- value into the RuntimeContext (the assignment happens regardless of
  -- truthiness; the copy only for a truthy value)
  let step2 : Option String × CtxState :=
    if !sTruthy y1 then
      let y := st.kfcFlowYaml
      if sTruthy y then
        (y, if st.rcAvailable then { st with rcFlowYaml := y } else st)
      else (y, st)
    else (y1, st)
  -- lines 120-141: fall back to the direct input, storing it in both
  let y2 := step2.1
  let st2 := step2.2
  if !sTruthy y2 && sTruthy inputFlowYaml then
    let st3 := { st2 with kfcFlowYaml := inputFlowYaml }
    let st4 := if st2.rcAvailable then { st3 with rcFlowYaml := inputFlowYaml } else st3
    { yamlContent := inputFlowYaml, state := st4 }
  else
    { yamlContent := y2, state := st2 }

/-! ### Concrete documents used by the scenario claims -/

/-- A well-formed document whose task sequence needs no repair. -/
def docSeqOk : JVal :=
  jobj [("id", jstr "a"), ("namespace", jstr "ns"),
        ("tasks", jarr [jobj [("id", jstr "t2"), ("type", jstr "log")]])]

/-- Scenario A input `{id: "", namespace: "", tasks: []}`. -/
def docScenarioA : JVal := jobj [("id", jstr ""), ("namespace", jstr ""), ("tasks", jarr [])]

/-- Scenario B input: a valid flow whose task carries `retry: "3"`. -/
def docScenarioB : JVal :=
  jobj [("id", jstr "f"), ("namespace", jstr "ns"),
        ("tasks", jarr [jobj [("id", jstr "t1"), ("type", jstr "log"), ("retry", jstr "3")]])]

/-- A flow whose `tasks` is a single mapping (not a sequence) carrying a
bare numeric `retry`. -/
def docTasksObjRetry : JVal :=
  jobj [("id", jstr "x"), ("namespace", jstr "ns"),
        ("tasks", jobj [("id", jstr "t"), ("type", jstr "log"), ("retry", jnum 3)])]

/-- The same shape with the retry count as a parameter. -/
def docWrapRetry (n : Int) : JVal :=
  jobj [("id", jstr "w"), ("namespace", jstr "ns"),
        ("tasks", jobj [("id", jstr "t"), ("type", jstr "log"), ("retry", jnum n)])]

/-- A flow missing its namespace (used to observe the in-place repair). -/
def docMissingNs : JVal :=
  jobj [("id", jstr "k"), ("tasks", jarr [jobj [("id", jstr "t"), ("type", jstr "log")]])]

/-- The task's `retry` is a bare number or string (the shapes fix 2
rewrites). -/
def bareRetryT (t : JVal) : Bool :=
  match getField t "retry" with
  | some (jnum _) => true
  | some (jstr _) => true
  | _ => false

/-- The task has a truthy `id` (fix 5 skips it). -/
def idOkT (t : JVal) : Bool := oTruthy (getField t "id")

/-- The task's `env` is not a truthy string (fix 6 skips it). -/
def envOkT (t : JVal) : Bool :=
  match getField t "env" with
  | some (jstr s) => s == ""
  | _ => true

/-- A document on which no repair rule fires: truthy namespace and a
`tasks` field that is either a fully normalized task sequence or a truthy
primitive that the rules skip. -/
def tasksIdleT (y : JVal) : Bool :=
  match getField y "tasks" with
  | some (jarr ts) => ts.all (fun t => !bareRetryT t && idOkT t && envOkT t)
  | some (jobj _) => false
  | some w => jTruthy w
  | none => false

/-- The class of documents on which the JavaScript repair runs without a
`TypeError`: mappings whose `tasks`, when a sequence, contains mappings
(property writes on primitives throw in strict mode; the spec's data
model gives `tasks` as a sequence of TaskSpec mappings). -/
def repairSafeT (v : JVal) : Bool :=
  isObjV v &&
  (match getField v "tasks" with
   | some (jarr ts) => ts.all isObjV
   | _ => true)

/-! ### Association-list lemmas for property reads and writes -/

theorem getFields_setFields_self (fs : List (String × JVal)) (k : String) (v : JVal) :
    getFields (setFields fs k v) k = some v := by
  induction fs with
  | nil => simp [setFields, getFields]
  | cons kv rest ih =>
    obtain ⟨k', v'⟩ := kv
    by_cases h : k' = k <;> simp [setFields, getFields, h, ih]

theorem getFields_setFields_ne (fs : List (String × JVal)) (k k' : String) (v : JVal)
    (h : k' ≠ k) : getFields (setFields fs k v) k' = getFields fs k' := by
  induction fs with
  | nil =>
    simp only [setFields, getFields]
    rw [if_neg (Ne.symm h)]
  | cons kv rest ih =>
    obtain ⟨k0, v0⟩ := kv
    by_cases h0 : k0 = k
    · subst h0
      simp only [setFields, if_pos rfl, getFields]
      rw [if_neg (Ne.symm h), if_neg (Ne.symm h)]
    · simp only [setFields, if_neg h0, getFields]
      by_cases h1 : k0 = k'
      · rw [if_pos h1, if_pos h1]
      · rw [if_neg h1, if_neg h1]
        exact ih

theorem setFields_getFields_id (fs : List (String × JVal)) (k : String) (w : JVal)
    (h : getFields fs k = some w) : setFields fs k w = fs := by
  induction fs with
  | nil => simp [getFields] at h
  | cons kv rest ih =>
    obtain ⟨k0, v0⟩ := kv
    by_cases h0 : k0 = k
    · subst h0
      simp [getFields] at h
      simp [setFields, h]
    · simp [getFields, h0] at h
      simp [setFields, h0, ih h]

theorem getField_setField_self (fs : List (String × JVal)) (k : String) (v : JVal) :
    getField (setField (jobj fs) k v) k = some v :=
  getFields_setFields_self fs k v

theorem getField_setField_ne (fs : List (String × JVal)) (k k' : String) (v : JVal)
    (h : k' ≠ k) : getField (setField (jobj fs) k v) k' = getField (jobj fs) k' :=
  getFields_setFields_ne fs k k' v h

theorem setField_getField_id (fs : List (String × JVal)) (k : String) (w : JVal)
    (h : getField (jobj fs) k = some w) : setField (jobj fs) k w = jobj fs :=
  congrArg jobj (setFields_getFields_id fs k w h)

/-! ### Task-state predicates for the repair analysis -/

theorem getField_some_jobj (t : JVal) (k : String) (v : JVal)
    (h : getField t k = some v) : ∃ fs, t = jobj fs := by
  cases t with
  | jobj fs => exact ⟨fs, rfl⟩
  | jnull => simp [getField] at h
  | jbool b => simp [getField] at h
  | jnum n => simp [getField] at h
  | jstr s => simp [getField] at h
  | jarr es => simp [getField] at h

/-! Task-level behaviour of the three per-task fixes. -/

theorem fixTaskRetry_of_ok (t : JVal) (h : bareRetryT t = false) : fixTaskRetry t = (t, []) := by
  unfold bareRetryT at h
  unfold fixTaskRetry
  cases hg : getField t "retry" with
  | none => rfl
  | some v => cases v <;> simp_all

theorem fixTaskRetry_not_bare (t : JVal) : bareRetryT (fixTaskRetry t).1 = false := by
  unfold fixTaskRetry
  cases hg : getField t "retry" with
  | none => simp [bareRetryT, hg]
  | some v =>
    cases v with
    | jnum n =>
      obtain ⟨fs, rfl⟩ := getField_some_jobj t "retry" _ hg
      simp [bareRetryT, getField_setField_self, retryObj]
    | jstr s =>
      obtain ⟨fs, rfl⟩ := getField_some_jobj t "retry" _ hg
      simp [bareRetryT, getField_setField_self, retryObj]
    | jnull => simp [bareRetryT, hg]
    | jbool b => simp [bareRetryT, hg]
    | jarr es => simp [bareRetryT, hg]
    | jobj ofs => simp [bareRetryT, hg]

theorem fixTaskRetry_frame (t : JVal) (k : String) (hk : k ≠ "retry") :
    getField (fixTaskRetry t).1 k = getField t k := by
  unfold fixTaskRetry
  cases hg : getField t "retry" with
  | none => rfl
  | some v =>
    cases v with
    | jnum n =>
      obtain ⟨fs, rfl⟩ := getField_some_jobj t "retry" _ hg
      simp [getField_setField_ne _ _ _ _ hk]
    | jstr s =>
      obtain ⟨fs, rfl⟩ := getField_some_jobj t "retry" _ hg
      simp [getField_setField_ne _ _ _ _ hk]
    | jnull => rfl
    | jbool b => rfl
    | jarr es => rfl
    | jobj ofs => rfl

theorem fixTaskRetry_isObj (t : JVal) : isObjV (fixTaskRetry t).1 = isObjV t := by
  unfold fixTaskRetry
  cases hg : getField t "retry" with
  | none => rfl
  | some v =>
    cases v with
    | jnum n =>
      obtain ⟨fs, rfl⟩ := getField_some_jobj t "retry" _ hg
      simp [setField, isObjV]
    | jstr s =>
      obtain ⟨fs, rfl⟩ := getField_some_jobj t "retry" _ hg
      simp [setField, isObjV]
    | jnull => rfl
    | jbool b => rfl
    | jarr es => rfl
    | jobj ofs => rfl

theorem fixTaskRetry_fix_length (t : JVal) :
    (fixTaskRetry t).2.length = if bareRetryT t then 1 else 0 := by
  unfold fixTaskRetry bareRetryT
  cases hg : getField t "retry" with
  | none => rfl
  | some v => cases v <;> rfl

theorem fixTaskId_of_ok (i : Nat) (t : JVal) (h : idOkT t = true) : fixTaskId i t = (t, []) := by
  unfold idOkT at h
  simp [fixTaskId, h]

theorem task_dash_id_truthy (i : Nat) : jTruthy (jstr ("task-" ++ toString (i + 1))) = true := by
  simp only [jTruthy, bne_iff_ne, ne_eq]
  intro h
  have hl := congrArg String.length h
  rw [String.length_append] at hl
  have h1 : ("task-" : String).length = 5 := rfl
  have h0 : ("" : String).length = 0 := rfl
  rw [h1, h0] at hl
  omega

theorem fixTaskId_idOk (i : Nat) (t : JVal) (hobj : isObjV t = true) :
    idOkT (fixTaskId i t).1 = true := by
  unfold fixTaskId
  by_cases h : oTruthy (getField t "id") = true
  · simp [h, idOkT]
  · have h' : oTruthy (getField t "id") = false := eq_false_of_ne_true h
    obtain ⟨fs, rfl⟩ : ∃ fs, t = jobj fs := by
      cases t with
      | jobj fs => exact ⟨fs, rfl⟩
      | jnull => simp [isObjV] at hobj
      | jbool b => simp [isObjV] at hobj
      | jnum n => simp [isObjV] at hobj
      | jstr s => simp [isObjV] at hobj
      | jarr es => simp [isObjV] at hobj
    rw [if_neg h]
    simp [idOkT, getField_setField_self, oTruthy, task_dash_id_truthy i]

theorem fixTaskId_frame (i : Nat) (t : JVal) (k : String) (hk : k ≠ "id") :
    getField (fixTaskId i t).1 k = getField t k := by
  unfold fixTaskId
  by_cases h : oTruthy (getField t "id") = true
  · simp [h]
  · have h' : oTruthy (getField t "id") = false := eq_false_of_ne_true h
    cases t with
    | jobj fs => simp [h', getField_setField_ne _ _ _ _ hk]
    | jnull => simp [h', setField]
    | jbool b => simp [h', setField]
    | jnum n => simp [h', setField]
    | jstr s => simp [h', setField]
    | jarr es => simp [h', setField]

theorem fixTaskId_isObj (i : Nat) (t : JVal) : isObjV (fixTaskId i t).1 = isObjV t := by
  unfold fixTaskId
  by_cases h : oTruthy (getField t "id") = true
  · simp [h]
  · have h' : oTruthy (getField t "id") = false := eq_false_of_ne_true h
    cases t <;> simp [h', setField, isObjV]

theorem fixTaskEnv_of_ok (t : JVal) (h : envOkT t = true) : fixTaskEnv t = (t, []) := by
  unfold envOkT at h
  unfold fixTaskEnv
  cases hg : getField t "env" with
  | none => rfl
  | some v =>
    cases v with
    | jstr s =>
      rw [hg] at h
      have hs : s = "" := by simpa using h
      simp [hs]
    | jnull => rfl
    | jbool b => rfl
    | jnum n => rfl
    | jarr es => rfl
    | jobj ofs => rfl

theorem fixTaskEnv_envOk (t : JVal) (hobj : isObjV t = true) :
    envOkT (fixTaskEnv t).1 = true := by
  obtain ⟨fs, rfl⟩ : ∃ fs, t = jobj fs := by
    cases t with
    | jobj fs => exact ⟨fs, rfl⟩
    | jnull => simp [isObjV] at hobj
    | jbool b => simp [isObjV] at hobj
    | jnum n => simp [isObjV] at hobj
    | jstr s => simp [isObjV] at hobj
    | jarr es => simp [isObjV] at hobj
  unfold fixTaskEnv
  cases hg : getField (jobj fs) "env" with
  | none => simp [envOkT, hg]
  | some v =>
    cases v with
    | jstr s =>
      by_cases hs : s = ""
      · simp [hs, envOkT, hg]
      · by_cases hb : s.trim.startsWith "\x7b" && s.trim.endsWith "\x7d"
        · cases hj : jsonParseObjFields s with
          | some fields => simp [hs, hb, hj, envOkT, getField_setField_self]
          | none => simp [hs, hb, hj, envOkT, getField_setField_self]
        · have hb' : (s.trim.startsWith "\x7b" && s.trim.endsWith "\x7d") = false :=
            eq_false_of_ne_true hb
          simp [hs, hb', envOkT, getField_setField_self]
    | jnull => simp [envOkT, hg]
    | jbool b => simp [envOkT, hg]
    | jnum n => simp [envOkT, hg]
    | jarr es => simp [envOkT, hg]
    | jobj ofs => simp [envOkT, hg]

theorem fixTaskEnv_frame (t : JVal) (k : String) (hk : k ≠ "env") :
    getField (fixTaskEnv t).1 k = getField t k := by
  unfold fixTaskEnv
  cases hg : getField t "env" with
  | none => rfl
  | some v =>
    cases v with
    | jstr s =>
      obtain ⟨fs, rfl⟩ := getField_some_jobj t "env" _ hg
      by_cases hs : s = ""
      · simp [hs]
      · by_cases hb : s.trim.startsWith "\x7b" && s.trim.endsWith "\x7d"
        · cases hj : jsonParseObjFields s with
          | some fields => simp [hs, hb, hj, getField_setField_ne _ _ _ _ hk]
          | none => simp [hs, hb, hj, getField_setField_ne _ _ _ _ hk]
        · have hb' : (s.trim.startsWith "\x7b" && s.trim.endsWith "\x7d") = false :=
            eq_false_of_ne_true hb
          simp [hs, hb', getField_setField_ne _ _ _ _ hk]
    | jnull => rfl
    | jbool b => rfl
    | jnum n => rfl
    | jarr es => rfl
    | jobj ofs => rfl

theorem fixTaskEnv_isObj (t : JVal) : isObjV (fixTaskEnv t).1 = isObjV t := by
  unfold fixTaskEnv
  cases hg : getField t "env" with
  | none => rfl
  | some v =>
    cases v with
    | jstr s =>
      obtain ⟨fs, rfl⟩ := getField_some_jobj t "env" _ hg
      by_cases hs : s = ""
      · simp [hs]
      · by_cases hb : s.trim.startsWith "\x7b" && s.trim.endsWith "\x7d"
        · cases hj : jsonParseObjFields s with
          | some fields => simp [hs, hb, hj, setField, isObjV]
          | none => simp [hs, hb, hj, setField, isObjV]
        · have hb' : (s.trim.startsWith "\x7b" && s.trim.endsWith "\x7d") = false :=
            eq_false_of_ne_true hb
          simp [hs, hb', setField, isObjV]
    | jnull => rfl
    | jbool b => rfl
    | jnum n => rfl
    | jarr es => rfl
    | jobj ofs => rfl

/-! Pointwise frame corollaries: each per-task fix leaves the other two
task fields (and objecthood) unchanged. -/

theorem fixTaskRetry_idOk (t : JVal) : idOkT (fixTaskRetry t).1 = idOkT t := by
  unfold idOkT
  rw [fixTaskRetry_frame t "id" (by decide)]

theorem fixTaskRetry_envOk (t : JVal) : envOkT (fixTaskRetry t).1 = envOkT t := by
  unfold envOkT
  rw [fixTaskRetry_frame t "env" (by decide)]

theorem fixTaskId_bare (i : Nat) (t : JVal) : bareRetryT (fixTaskId i t).1 = bareRetryT t := by
  unfold bareRetryT
  rw [fixTaskId_frame i t "retry" (by decide)]

theorem fixTaskId_envOk (i : Nat) (t : JVal) : envOkT (fixTaskId i t).1 = envOkT t := by
  unfold envOkT
  rw [fixTaskId_frame i t "env" (by decide)]

theorem fixTaskEnv_bare (t : JVal) : bareRetryT (fixTaskEnv t).1 = bareRetryT t := by
  unfold bareRetryT
  rw [fixTaskEnv_frame t "retry" (by decide)]

theorem fixTaskEnv_idOk (t : JVal) : idOkT (fixTaskEnv t).1 = idOkT t := by
  unfold idOkT
  rw [fixTaskEnv_frame t "id" (by decide)]

/-! List-level behaviour of the three task loops. -/

theorem fixRetryList_of_ok (ts : List JVal) (h : ts.all (fun t => !bareRetryT t) = true) :
    fixRetryList ts = (ts, []) := by
  induction ts with
  | nil => rfl
  | cons t rest ih =>
    simp only [List.all_cons, Bool.and_eq_true, Bool.not_eq_true'] at h
    simp [fixRetryList, fixTaskRetry_of_ok t h.1, ih h.2]

theorem fixRetryList_all_not_bare (ts : List JVal) :
    (fixRetryList ts).1.all (fun t => !bareRetryT t) = true := by
  induction ts with
  | nil => rfl
  | cons t rest ih => simp [fixRetryList, fixTaskRetry_not_bare, ih]

theorem fixRetryList_all_isObj (ts : List JVal) (h : ts.all isObjV = true) :
    (fixRetryList ts).1.all isObjV = true := by
  induction ts with
  | nil => rfl
  | cons t rest ih =>
    simp only [List.all_cons, Bool.and_eq_true] at h
    simp [fixRetryList, fixTaskRetry_isObj, h.1, ih h.2]

theorem fixRetryList_pres_idOk (ts : List JVal) (h : ts.all idOkT = true) :
    (fixRetryList ts).1.all idOkT = true := by
  induction ts with
  | nil => rfl
  | cons t rest ih =>
    simp only [List.all_cons, Bool.and_eq_true] at h
    simp [fixRetryList, fixTaskRetry_idOk, h.1, ih h.2]

theorem fixRetryList_pres_envOk (ts : List JVal) (h : ts.all envOkT = true) :
    (fixRetryList ts).1.all envOkT = true := by
  induction ts with
  | nil => rfl
  | cons t rest ih =>
    simp only [List.all_cons, Bool.and_eq_true] at h
    simp [fixRetryList, fixTaskRetry_envOk, h.1, ih h.2]

theorem fixRetryList_count (ts : List JVal) :
    (fixRetryList ts).2.length = ts.countP (fun t => bareRetryT t) := by
  induction ts with
  | nil => rfl
  | cons t rest ih =>
    simp only [fixRetryList, List.length_append, List.countP_cons, ih,
      fixTaskRetry_fix_length]
    by_cases hb : bareRetryT t = true
    · simp [hb]
      omega
    · simp [hb]

theorem fixIdList_of_ok (i : Nat) (ts : List JVal) (h : ts.all idOkT = true) :
    fixIdList i ts = (ts, []) := by
  induction ts generalizing i with
  | nil => rfl
  | cons t rest ih =>
    simp only [List.all_cons, Bool.and_eq_true] at h
    simp [fixIdList, fixTaskId_of_ok i t h.1, ih (i + 1) h.2]

theorem fixIdList_all_idOk (i : Nat) (ts : List JVal) (h : ts.all isObjV = true) :
    (fixIdList i ts).1.all idOkT = true := by
  induction ts generalizing i with
  | nil => rfl
  | cons t rest ih =>
    simp only [List.all_cons, Bool.and_eq_true] at h
    simp [fixIdList, fixTaskId_idOk i t h.1, ih (i + 1) h.2]

theorem fixIdList_all_isObj (i : Nat) (ts : List JVal) (h : ts.all isObjV = true) :
    (fixIdList i ts).1.all isObjV = true := by
  induction ts generalizing i with
  | nil => rfl
  | cons t rest ih =>
    simp only [List.all_cons, Bool.and_eq_true] at h
    simp [fixIdList, fixTaskId_isObj, h.1, ih (i + 1) h.2]

theorem fixIdList_pres_bare (i : Nat) (ts : List JVal)
    (h : ts.all (fun t => !bareRetryT t) = true) :
    (fixIdList i ts).1.all (fun t => !bareRetryT t) = true := by
  induction ts generalizing i with
  | nil => rfl
  | cons t rest ih =>
    simp only [List.all_cons, Bool.and_eq_true, Bool.not_eq_true'] at h
    simp [fixIdList, fixTaskId_bare, h.1, ih (i + 1) h.2]

theorem fixIdList_pres_envOk (i : Nat) (ts : List JVal) (h : ts.all envOkT = true) :
    (fixIdList i ts).1.all envOkT = true := by
  induction ts generalizing i with
  | nil => rfl
  | cons t rest ih =>
    simp only [List.all_cons, Bool.and_eq_true] at h
    simp [fixIdList, fixTaskId_envOk, h.1, ih (i + 1) h.2]

theorem fixEnvList_of_ok (ts : List JVal) (h : ts.all envOkT = true) :
    fixEnvList ts = (ts, []) := by
  induction ts with
  | nil => rfl
  | cons t rest ih =>
    simp only [List.all_cons, Bool.and_eq_true] at h
    simp [fixEnvList, fixTaskEnv_of_ok t h.1, ih h.2]

theorem fixEnvList_all_envOk (ts : List JVal) (h : ts.all isObjV = true) :
    (fixEnvList ts).1.all envOkT = true := by
  induction ts with
  | nil => rfl
  | cons t rest ih =>
    simp only [List.all_cons, Bool.and_eq_true] at h
    simp [fixEnvList, fixTaskEnv_envOk t h.1, ih h.2]

theorem fixEnvList_all_isObj (ts : List JVal) (h : ts.all isObjV = true) :
    (fixEnvList ts).1.all isObjV = true := by
  induction ts with
  | nil => rfl
  | cons t rest ih =>
    simp only [List.all_cons, Bool.and_eq_true] at h
    simp [fixEnvList, fixTaskEnv_isObj, h.1, ih h.2]

theorem fixEnvList_pres_bare (ts : List JVal)
    (h : ts.all (fun t => !bareRetryT t) = true) :
    (fixEnvList ts).1.all (fun t => !bareRetryT t) = true := by
  induction ts with
  | nil => rfl
  | cons t rest ih =>
    simp only [List.all_cons, Bool.and_eq_true, Bool.not_eq_true'] at h
    simp [fixEnvList, fixTaskEnv_bare, h.1, ih h.2]

theorem fixEnvList_pres_idOk (ts : List JVal) (h : ts.all idOkT = true) :
    (fixEnvList ts).1.all idOkT = true := by
  induction ts with
  | nil => rfl
  | cons t rest ih =>
    simp only [List.all_cons, Bool.and_eq_true] at h
    simp [fixEnvList, fixTaskEnv_idOk, h.1, ih h.2]

/-! Document-level behaviour of the six passes. -/

theorem isObjV_jobj (y : JVal) (h : isObjV y = true) : ∃ fs, y = jobj fs := by
  cases y with
  | jobj fs => exact ⟨fs, rfl⟩
  | jnull => simp [isObjV] at h
  | jbool b => simp [isObjV] at h
  | jnum n => simp [isObjV] at h
  | jstr s => simp [isObjV] at h
  | jarr es => simp [isObjV] at h

theorem setFields_setFields (fs : List (String × JVal)) (k : String) (a b : JVal) :
    setFields (setFields fs k a) k b = setFields fs k b := by
  induction fs with
  | nil => simp [setFields]
  | cons kv rest ih =>
    obtain ⟨k0, v0⟩ := kv
    by_cases h0 : k0 = k
    · simp [setFields, h0]
    · simp [setFields, h0, ih]

theorem setField_setField (fs : List (String × JVal)) (k : String) (a b : JVal) :
    setField (setField (jobj fs) k a) k b = setField (jobj fs) k b :=
  congrArg jobj (setFields_setFields fs k a b)

theorem fixNamespacePass_of_ok (y : JVal) (h : oTruthy (getField y "namespace") = true) :
    fixNamespacePass y = (y, []) := by
  simp [fixNamespacePass, h]

theorem fixNamespacePass_ns (fs : List (String × JVal)) :
    oTruthy (getField (fixNamespacePass (jobj fs)).1 "namespace") = true := by
  unfold fixNamespacePass
  by_cases h : oTruthy (getField (jobj fs) "namespace") = true
  · simp [h]
  · rw [if_neg h]
    show oTruthy (getField (setField (jobj fs) "namespace" (jstr "company.team")) "namespace") = true
    rw [getField_setField_self]
    rfl

theorem fixNamespacePass_isObj (fs : List (String × JVal)) :
    isObjV (fixNamespacePass (jobj fs)).1 = true := by
  unfold fixNamespacePass
  by_cases h : oTruthy (getField (jobj fs) "namespace") = true
  · simp [h, isObjV]
  · rw [if_neg h]
    rfl

theorem fixNamespacePass_frame (fs : List (String × JVal)) (k : String)
    (hk : k ≠ "namespace") :
    getField (fixNamespacePass (jobj fs)).1 k = getField (jobj fs) k := by
  unfold fixNamespacePass
  by_cases h : oTruthy (getField (jobj fs) "namespace") = true
  · simp [h]
  · rw [if_neg h]
    exact getField_setField_ne fs "namespace" k _ hk

theorem fixTasksRetryPass_arr (y : JVal) (ts : List JVal)
    (hg : getField y "tasks" = some (jarr ts)) :
    fixTasksRetryPass y =
      (setField y "tasks" (jarr (fixRetryList ts).1), (fixRetryList ts).2) := by
  unfold fixTasksRetryPass
  rw [hg]

theorem fixTasksRetryPass_skip (y : JVal)
    (h : (match getField y "tasks" with
          | some (jarr _) => false
          | _ => true) = true) :
    fixTasksRetryPass y = (y, []) := by
  unfold fixTasksRetryPass
  cases hg : getField y "tasks" with
  | none => rfl
  | some w =>
    rw [hg] at h
    cases w <;> simp_all

theorem fixTasksExistPass_of_truthy (y : JVal) (h : oTruthy (getField y "tasks") = true) :
    fixTasksExistPass y = (y, []) := by
  simp [fixTasksExistPass, h]

theorem fixTasksExistPass_of_falsy (y : JVal) (h : oTruthy (getField y "tasks") = false) :
    fixTasksExistPass y = (setField y "tasks" (jarr []), ["Added missing tasks array"]) := by
  simp [fixTasksExistPass, h]

theorem fixTasksArrayPass_obj (y : JVal) (tfs : List (String × JVal))
    (hg : getField y "tasks" = some (jobj tfs)) :
    fixTasksArrayPass y =
      (setField y "tasks" (jarr [jobj tfs]), ["Converted tasks object to array format"]) := by
  unfold fixTasksArrayPass
  rw [hg]

theorem fixTasksArrayPass_skip (y : JVal)
    (h : (match getField y "tasks" with
          | some (jobj _) => false
          | _ => true) = true) :
    fixTasksArrayPass y = (y, []) := by
  unfold fixTasksArrayPass
  cases hg : getField y "tasks" with
  | none => rfl
  | some w =>
    rw [hg] at h
    cases w <;> simp_all

theorem fixTaskIdsPass_arr (y : JVal) (ts : List JVal)
    (hg : getField y "tasks" = some (jarr ts)) :
    fixTaskIdsPass y =
      (setField y "tasks" (jarr (fixIdList 0 ts).1), (fixIdList 0 ts).2) := by
  unfold fixTaskIdsPass
  rw [hg]

theorem fixTaskIdsPass_skip (y : JVal)
    (h : (match getField y "tasks" with
          | some (jarr _) => false
          | _ => true) = true) :
    fixTaskIdsPass y = (y, []) := by
  unfold fixTaskIdsPass
  cases hg : getField y "tasks" with
  | none => rfl
  | some w =>
    rw [hg] at h
    cases w <;> simp_all

theorem fixTaskEnvPass_arr (y : JVal) (ts : List JVal)
    (hg : getField y "tasks" = some (jarr ts)) :
    fixTaskEnvPass y =
      (setField y "tasks" (jarr (fixEnvList ts).1), (fixEnvList ts).2) := by
  unfold fixTaskEnvPass
  rw [hg]

theorem fixTaskEnvPass_skip (y : JVal)
    (h : (match getField y "tasks" with
          | some (jarr _) => false
          | _ => true) = true) :
    fixTaskEnvPass y = (y, []) := by
  unfold fixTaskEnvPass
  cases hg : getField y "tasks" with
  | none => rfl
  | some w =>
    rw [hg] at h
    cases w <;> simp_all

theorem applyCommonFixes_eq (y : JVal) (hy : jTruthy y = true) :
    applyCommonFixes y =
      ((fixTaskEnvPass (fixTaskIdsPass (fixTasksArrayPass (fixTasksExistPass
          (fixTasksRetryPass (fixNamespacePass y).1).1).1).1).1).1,
       (fixNamespacePass y).2 ++
       (fixTasksRetryPass (fixNamespacePass y).1).2 ++
       (fixTasksExistPass (fixTasksRetryPass (fixNamespacePass y).1).1).2 ++
       (fixTasksArrayPass (fixTasksExistPass
          (fixTasksRetryPass (fixNamespacePass y).1).1).1).2 ++
       (fixTaskIdsPass (fixTasksArrayPass (fixTasksExistPass
          (fixTasksRetryPass (fixNamespacePass y).1).1).1).1).2 ++
       (fixTaskEnvPass (fixTaskIdsPass (fixTasksArrayPass (fixTasksExistPass
          (fixTasksRetryPass (fixNamespacePass y).1).1).1).1).1).2) := by
  unfold applyCommonFixes
  rw [hy]
  rfl

theorem all_and3_split (p q r : JVal → Bool) (ts : List JVal)
    (h : ts.all (fun t => p t && q t && r t) = true) :
    ts.all p = true ∧ ts.all q = true ∧ ts.all r = true := by
  induction ts with
  | nil => simp
  | cons t rest ih =>
    simp only [List.all_cons, Bool.and_eq_true] at h ⊢
    obtain ⟨⟨⟨hp, hq⟩, hr⟩, hrest⟩ := h
    obtain ⟨ihp, ihq, ihr⟩ := ih hrest
    exact ⟨⟨hp, ihp⟩, ⟨hq, ihq⟩, ⟨hr, ihr⟩⟩

theorem applyCommonFixes_idle (y : JVal) (hobj : isObjV y = true)
    (hns : oTruthy (getField y "namespace") = true)
    (hts : tasksIdleT y = true) :
    applyCommonFixes y = (y, []) := by
  obtain ⟨fs, rfl⟩ := isObjV_jobj y hobj
  have hy : jTruthy (jobj fs) = true := rfl
  have h1 := fixNamespacePass_of_ok (jobj fs) hns
  unfold tasksIdleT at hts
  cases hg : getField (jobj fs) "tasks" with
  | none => rw [hg] at hts; exact absurd hts (by simp)
  | some w =>
    rw [hg] at hts
    cases w with
    | jarr ts =>
      obtain ⟨hbare, hid, henv⟩ :=
        all_and3_split (fun t => !bareRetryT t) idOkT envOkT ts hts
      have h2 : fixTasksRetryPass (jobj fs) = (jobj fs, []) := by
        rw [fixTasksRetryPass_arr (jobj fs) ts hg, fixRetryList_of_ok ts hbare,
          setField_getField_id fs "tasks" (jarr ts) hg]
      have h3 : fixTasksExistPass (jobj fs) = (jobj fs, []) :=
        fixTasksExistPass_of_truthy (jobj fs) (by rw [hg]; rfl)
      have h4 : fixTasksArrayPass (jobj fs) = (jobj fs, []) :=
        fixTasksArrayPass_skip (jobj fs) (by rw [hg])
      have h5 : fixTaskIdsPass (jobj fs) = (jobj fs, []) := by
        rw [fixTaskIdsPass_arr (jobj fs) ts hg, fixIdList_of_ok 0 ts hid,
          setField_getField_id fs "tasks" (jarr ts) hg]
      have h6 : fixTaskEnvPass (jobj fs) = (jobj fs, []) := by
        rw [fixTaskEnvPass_arr (jobj fs) ts hg, fixEnvList_of_ok ts henv,
          setField_getField_id fs "tasks" (jarr ts) hg]
      rw [applyCommonFixes_eq (jobj fs) hy]
      simp [h1, h2, h3, h4, h5, h6]
    | jobj tfs => exact absurd hts (by simp)
    | jnull => exact absurd hts (by simp [jTruthy])
    | jbool b =>
      have h2 : fixTasksRetryPass (jobj fs) = (jobj fs, []) :=
        fixTasksRetryPass_skip (jobj fs) (by rw [hg])
      have h3 : fixTasksExistPass (jobj fs) = (jobj fs, []) :=
        fixTasksExistPass_of_truthy (jobj fs) (by rw [hg]; exact hts)
      have h4 : fixTasksArrayPass (jobj fs) = (jobj fs, []) :=
        fixTasksArrayPass_skip (jobj fs) (by rw [hg])
      have h5 : fixTaskIdsPass (jobj fs) = (jobj fs, []) :=
        fixTaskIdsPass_skip (jobj fs) (by rw [hg])
      have h6 : fixTaskEnvPass (jobj fs) = (jobj fs, []) :=
        fixTaskEnvPass_skip (jobj fs) (by rw [hg])
      rw [applyCommonFixes_eq (jobj fs) hy]
      simp [h1, h2, h3, h4, h5, h6]
    | jnum n =>
      have h2 : fixTasksRetryPass (jobj fs) = (jobj fs, []) :=
        fixTasksRetryPass_skip (jobj fs) (by rw [hg])
      have h3 : fixTasksExistPass (jobj fs) = (jobj fs, []) :=
        fixTasksExistPass_of_truthy (jobj fs) (by rw [hg]; exact hts)
      have h4 : fixTasksArrayPass (jobj fs) = (jobj fs, []) :=
        fixTasksArrayPass_skip (jobj fs) (by rw [hg])
      have h5 : fixTaskIdsPass (jobj fs) = (jobj fs, []) :=
        fixTaskIdsPass_skip (jobj fs) (by rw [hg])
      have h6 : fixTaskEnvPass (jobj fs) = (jobj fs, []) :=
        fixTaskEnvPass_skip (jobj fs) (by rw [hg])
      rw [applyCommonFixes_eq (jobj fs) hy]
      simp [h1, h2, h3, h4, h5, h6]
    | jstr s =>
      have h2 : fixTasksRetryPass (jobj fs) = (jobj fs, []) :=
        fixTasksRetryPass_skip (jobj fs) (by rw [hg])
      have h3 : fixTasksExistPass (jobj fs) = (jobj fs, []) :=
        fixTasksExistPass_of_truthy (jobj fs) (by rw [hg]; exact hts)
      have h4 : fixTasksArrayPass (jobj fs) = (jobj fs, []) :=
        fixTasksArrayPass_skip (jobj fs) (by rw [hg])
      have h5 : fixTaskIdsPass (jobj fs) = (jobj fs, []) :=
        fixTaskIdsPass_skip (jobj fs) (by rw [hg])
      have h6 : fixTaskEnvPass (jobj fs) = (jobj fs, []) :=
        fixTaskEnvPass_skip (jobj fs) (by rw [hg])
      rw [applyCommonFixes_eq (jobj fs) hy]
      simp [h1, h2, h3, h4, h5, h6]

/-- One repair run on a document whose `tasks` is a sequence: the
namespace pass, then the three task loops (retry, ids, env) over the
sequence — the wrap and missing-tasks passes do not fire. -/
theorem applyCommonFixes_arr (fs : List (String × JVal)) (ts : List JVal)
    (hg : getField (jobj fs) "tasks" = some (jarr ts)) :
    applyCommonFixes (jobj fs) =
      (setField (fixNamespacePass (jobj fs)).1 "tasks"
         (jarr (fixEnvList (fixIdList 0 (fixRetryList ts).1).1).1),
       (fixNamespacePass (jobj fs)).2 ++ (fixRetryList ts).2 ++
         (fixIdList 0 (fixRetryList ts).1).2 ++
         (fixEnvList (fixIdList 0 (fixRetryList ts).1).1).2) := by
  have hy : jTruthy (jobj fs) = true := rfl
  obtain ⟨fs1, hfs1⟩ := isObjV_jobj _ (fixNamespacePass_isObj fs)
  have hg1 : getField (jobj fs1) "tasks" = some (jarr ts) := by
    rw [← hfs1, fixNamespacePass_frame fs "tasks" (by decide), hg]
  have h2 := fixTasksRetryPass_arr (jobj fs1) ts hg1
  have hself2 : getField (setField (jobj fs1) "tasks" (jarr (fixRetryList ts).1)) "tasks" =
      some (jarr (fixRetryList ts).1) := getField_setField_self fs1 "tasks" _
  have h3 := fixTasksExistPass_of_truthy
    (setField (jobj fs1) "tasks" (jarr (fixRetryList ts).1)) (by rw [hself2]; rfl)
  have h4 := fixTasksArrayPass_skip
    (setField (jobj fs1) "tasks" (jarr (fixRetryList ts).1)) (by rw [hself2])
  have h5 := fixTaskIdsPass_arr
    (setField (jobj fs1) "tasks" (jarr (fixRetryList ts).1)) _ hself2
  have hcol5 := setField_setField fs1 "tasks" (jarr (fixRetryList ts).1)
    (jarr (fixIdList 0 (fixRetryList ts).1).1)
  have hself5 : getField (setField (jobj fs1) "tasks"
      (jarr (fixIdList 0 (fixRetryList ts).1).1)) "tasks" =
      some (jarr (fixIdList 0 (fixRetryList ts).1).1) := getField_setField_self fs1 "tasks" _
  have h6 := fixTaskEnvPass_arr
    (setField (jobj fs1) "tasks" (jarr (fixIdList 0 (fixRetryList ts).1).1)) _ hself5
  have hcol6 := setField_setField fs1 "tasks" (jarr (fixIdList 0 (fixRetryList ts).1).1)
    (jarr (fixEnvList (fixIdList 0 (fixRetryList ts).1).1).1)
  rw [applyCommonFixes_eq (jobj fs) hy, hfs1]
  simp only [h2, h3, h4, h5, hcol5, h6, hcol6]
  simp

/-- One repair run on a document whose `tasks` is a single mapping: the
namespace pass, the wrap (the retry loop fired *before* the wrap and saw
no sequence), then ids and env over the wrapped one-element sequence. -/
theorem applyCommonFixes_objTasks (fs tfs : List (String × JVal))
    (hg : getField (jobj fs) "tasks" = some (jobj tfs)) :
    applyCommonFixes (jobj fs) =
      (setField (fixNamespacePass (jobj fs)).1 "tasks"
         (jarr (fixEnvList (fixIdList 0 [jobj tfs]).1).1),
       (fixNamespacePass (jobj fs)).2 ++ ["Converted tasks object to array format"] ++
         (fixIdList 0 [jobj tfs]).2 ++ (fixEnvList (fixIdList 0 [jobj tfs]).1).2) := by
  have hy : jTruthy (jobj fs) = true := rfl
  obtain ⟨fs1, hfs1⟩ := isObjV_jobj _ (fixNamespacePass_isObj fs)
  have hg1 : getField (jobj fs1) "tasks" = some (jobj tfs) := by
    rw [← hfs1, fixNamespacePass_frame fs "tasks" (by decide), hg]
  have h2 := fixTasksRetryPass_skip (jobj fs1) (by rw [hg1])
  have h3 := fixTasksExistPass_of_truthy (jobj fs1) (by rw [hg1]; rfl)
  have h4 := fixTasksArrayPass_obj (jobj fs1) tfs hg1
  have hself4 : getField (setField (jobj fs1) "tasks" (jarr [jobj tfs])) "tasks" =
      some (jarr [jobj tfs]) := getField_setField_self fs1 "tasks" _
  have h5 := fixTaskIdsPass_arr (setField (jobj fs1) "tasks" (jarr [jobj tfs])) _ hself4
  have hcol5 := setField_setField fs1 "tasks" (jarr [jobj tfs])
    (jarr (fixIdList 0 [jobj tfs]).1)
  have hself5 : getField (setField (jobj fs1) "tasks"
      (jarr (fixIdList 0 [jobj tfs]).1)) "tasks" =
      some (jarr (fixIdList 0 [jobj tfs]).1) := getField_setField_self fs1 "tasks" _
  have h6 := fixTaskEnvPass_arr
    (setField (jobj fs1) "tasks" (jarr (fixIdList 0 [jobj tfs]).1)) _ hself5
  have hcol6 := setField_setField fs1 "tasks" (jarr (fixIdList 0 [jobj tfs]).1)
    (jarr (fixEnvList (fixIdList 0 [jobj tfs]).1).1)
  rw [applyCommonFixes_eq (jobj fs) hy, hfs1]
  simp only [h2, h3, h4, h5, hcol5, h6, hcol6]
  simp

/-- One repair run on a document whose `tasks` is falsy (absent, `null`,
`0`, `""` or `false`): the namespace pass plus the missing-tasks fix. -/
theorem applyCommonFixes_falsy_tasks (fs : List (String × JVal))
    (hg : oTruthy (getField (jobj fs) "tasks") = false) :
    applyCommonFixes (jobj fs) =
      (setField (fixNamespacePass (jobj fs)).1 "tasks" (jarr []),
       (fixNamespacePass (jobj fs)).2 ++ ["Added missing tasks array"]) := by
  have hy : jTruthy (jobj fs) = true := rfl
  obtain ⟨fs1, hfs1⟩ := isObjV_jobj _ (fixNamespacePass_isObj fs)
  have hg1 : oTruthy (getField (jobj fs1) "tasks") = false := by
    rw [← hfs1, fixNamespacePass_frame fs "tasks" (by decide)]
    exact hg
  have h2 := fixTasksRetryPass_skip (jobj fs1) (by
    cases hw : getField (jobj fs1) "tasks" with
    | none => rfl
    | some w => rw [hw] at hg1; cases w <;> simp_all [oTruthy, jTruthy])
  have h3 := fixTasksExistPass_of_falsy (jobj fs1) hg1
  have hself3 : getField (setField (jobj fs1) "tasks" (jarr [])) "tasks" =
      some (jarr []) := getField_setField_self fs1 "tasks" _
  have h4 := fixTasksArrayPass_skip (setField (jobj fs1) "tasks" (jarr []))
    (by rw [hself3])
  have h5 := fixTaskIdsPass_arr (setField (jobj fs1) "tasks" (jarr [])) _ hself3
  have hcol5 := setField_setField fs1 "tasks" (jarr []) (jarr (fixIdList 0 []).1)
  have hself5 : getField (setField (jobj fs1) "tasks" (jarr (fixIdList 0 []).1)) "tasks" =
      some (jarr (fixIdList 0 []).1) := getField_setField_self fs1 "tasks" _
  have h6 := fixTaskEnvPass_arr (setField (jobj fs1) "tasks" (jarr (fixIdList 0 []).1)) _ hself5
  have hcol6 := setField_setField fs1 "tasks" (jarr (fixIdList 0 []).1)
    (jarr (fixEnvList (fixIdList 0 []).1).1)
  rw [applyCommonFixes_eq (jobj fs) hy, hfs1]
  simp only [h2, h3, h4, h5, hcol5, h6, hcol6]
  simp [fixIdList, fixEnvList]

/-- One repair run on a document whose `tasks` is a truthy primitive
(nonzero number, nonempty string, `true`): only the namespace pass can
fire; every tasks rule skips such a value. -/
theorem applyCommonFixes_prim_tasks (fs : List (String × JVal)) (w : JVal)
    (hg : getField (jobj fs) "tasks" = some w)
    (htr : jTruthy w = true)
    (hnotarr : isArr w = false) (hnotobj : isObjV w = false) :
    applyCommonFixes (jobj fs) =
      ((fixNamespacePass (jobj fs)).1, (fixNamespacePass (jobj fs)).2) := by
  have hy : jTruthy (jobj fs) = true := rfl
  obtain ⟨fs1, hfs1⟩ := isObjV_jobj _ (fixNamespacePass_isObj fs)
  have hg1 : getField (jobj fs1) "tasks" = some w := by
    rw [← hfs1, fixNamespacePass_frame fs "tasks" (by decide), hg]
  have h2 := fixTasksRetryPass_skip (jobj fs1) (by
    rw [hg1]; cases w <;> simp_all [isArr])
  have h3 := fixTasksExistPass_of_truthy (jobj fs1) (by rw [hg1]; exact htr)
  have h4 := fixTasksArrayPass_skip (jobj fs1) (by
    rw [hg1]; cases w <;> simp_all [isObjV])
  have h5 := fixTaskIdsPass_skip (jobj fs1) (by
    rw [hg1]; cases w <;> simp_all [isArr])
  have h6 := fixTaskEnvPass_skip (jobj fs1) (by
    rw [hg1]; cases w <;> simp_all [isArr])
  rw [applyCommonFixes_eq (jobj fs) hy, hfs1]
  simp only [h2, h3, h4, h5, h6]
  simp

theorem all_and3_combine (p q r : JVal → Bool) (ts : List JVal)
    (hp : ts.all p = true) (hq : ts.all q = true) (hr : ts.all r = true) :
    ts.all (fun t => p t && q t && r t) = true := by
  induction ts with
  | nil => simp
  | cons t rest ih =>
    simp only [List.all_cons, Bool.and_eq_true] at hp hq hr ⊢
    exact ⟨⟨⟨hp.1, hq.1⟩, hr.1⟩, ih hp.2 hq.2 hr.2⟩

/-- A second repair run is a fixpoint when the first run saw falsy
`tasks`. -/
theorem run2_after_falsy (fs : List (String × JVal))
    (hg : oTruthy (getField (jobj fs) "tasks") = false) :
    applyCommonFixes (applyCommonFixes (jobj fs)).1 = ((applyCommonFixes (jobj fs)).1, []) := by
  obtain ⟨fs1, hfs1⟩ := isObjV_jobj _ (fixNamespacePass_isObj fs)
  have hrun := applyCommonFixes_falsy_tasks fs hg
  rw [hfs1] at hrun
  rw [hrun]
  refine applyCommonFixes_idle _ ?_ ?_ ?_
  · rfl
  · show oTruthy (getField (setField (jobj fs1) "tasks" (jarr [])) "namespace") = true
    rw [getField_setField_ne fs1 "tasks" "namespace" _ (by decide), ← hfs1]
    exact fixNamespacePass_ns fs
  · show tasksIdleT (setField (jobj fs1) "tasks" (jarr [])) = true
    unfold tasksIdleT
    rw [getField_setField_self]
    rfl

/-- A second repair run is a fixpoint when `tasks` is a truthy primitive
that every rule skips. -/
theorem run2_after_prim (fs : List (String × JVal)) (w : JVal)
    (hg : getField (jobj fs) "tasks" = some w) (htr : jTruthy w = true)
    (hnotarr : isArr w = false) (hnotobj : isObjV w = false) :
    applyCommonFixes (applyCommonFixes (jobj fs)).1 = ((applyCommonFixes (jobj fs)).1, []) := by
  obtain ⟨fs1, hfs1⟩ := isObjV_jobj _ (fixNamespacePass_isObj fs)
  have hg1 : getField (jobj fs1) "tasks" = some w := by
    rw [← hfs1, fixNamespacePass_frame fs "tasks" (by decide), hg]
  have hrun := applyCommonFixes_prim_tasks fs w hg htr hnotarr hnotobj
  rw [hfs1] at hrun
  rw [hrun]
  refine applyCommonFixes_idle _ ?_ ?_ ?_
  · rfl
  · show oTruthy (getField (jobj fs1) "namespace") = true
    rw [← hfs1]
    exact fixNamespacePass_ns fs
  · show tasksIdleT (jobj fs1) = true
    unfold tasksIdleT
    rw [hg1]
    cases w <;> simp_all [isArr, isObjV, jTruthy]

/-- A second repair run is a fixpoint when the first run normalized a
task sequence of mappings. -/
theorem run2_after_arr (fs : List (String × JVal)) (ts : List JVal)
    (hg : getField (jobj fs) "tasks" = some (jarr ts)) (hts : ts.all isObjV = true) :
    applyCommonFixes (applyCommonFixes (jobj fs)).1 = ((applyCommonFixes (jobj fs)).1, []) := by
  obtain ⟨fs1, hfs1⟩ := isObjV_jobj _ (fixNamespacePass_isObj fs)
  have hrun := applyCommonFixes_arr fs ts hg
  rw [hfs1] at hrun
  have hts2o := fixRetryList_all_isObj ts hts
  have hts2b := fixRetryList_all_not_bare ts
  have hts5o := fixIdList_all_isObj 0 _ hts2o
  have hts5i := fixIdList_all_idOk 0 _ hts2o
  have hts5b := fixIdList_pres_bare 0 _ hts2b
  have hts6o := fixEnvList_all_isObj _ hts5o
  have hts6e := fixEnvList_all_envOk _ hts5o
  have hts6i := fixEnvList_pres_idOk _ hts5i
  have hts6b := fixEnvList_pres_bare _ hts5b
  rw [hrun]
  refine applyCommonFixes_idle _ ?_ ?_ ?_
  · rfl
  · show oTruthy (getField (setField (jobj fs1) "tasks"
      (jarr (fixEnvList (fixIdList 0 (fixRetryList ts).1).1).1)) "namespace") = true
    rw [getField_setField_ne fs1 "tasks" "namespace" _ (by decide), ← hfs1]
    exact fixNamespacePass_ns fs
  · show tasksIdleT (setField (jobj fs1) "tasks"
      (jarr (fixEnvList (fixIdList 0 (fixRetryList ts).1).1).1)) = true
    unfold tasksIdleT
    rw [getField_setField_self]
    exact all_and3_combine _ _ _ _ hts6b hts6i hts6e

/-- A second repair run is a fixpoint when the first run wrapped a
non-sequence `tasks` mapping whose retry was already normal. -/
theorem run2_after_wrap_not_bare (fs tfs : List (String × JVal))
    (hg : getField (jobj fs) "tasks" = some (jobj tfs))
    (hbare : bareRetryT (jobj tfs) = false) :
    applyCommonFixes (applyCommonFixes (jobj fs)).1 = ((applyCommonFixes (jobj fs)).1, []) := by
  obtain ⟨fs1, hfs1⟩ := isObjV_jobj _ (fixNamespacePass_isObj fs)
  have hrun := applyCommonFixes_objTasks fs tfs hg
  rw [hfs1] at hrun
  have hobj5 : isObjV (fixTaskId 0 (jobj tfs)).1 = true := by
    rw [fixTaskId_isObj]
    rfl
  have hobj6 : isObjV (fixTaskEnv (fixTaskId 0 (jobj tfs)).1).1 = true := by
    rw [fixTaskEnv_isObj]
    exact hobj5
  have hid6 : idOkT (fixTaskEnv (fixTaskId 0 (jobj tfs)).1).1 = true := by
    rw [fixTaskEnv_idOk]
    exact fixTaskId_idOk 0 _ rfl
  have henv6 : envOkT (fixTaskEnv (fixTaskId 0 (jobj tfs)).1).1 = true :=
    fixTaskEnv_envOk _ hobj5
  have hbare6 : bareRetryT (fixTaskEnv (fixTaskId 0 (jobj tfs)).1).1 = false := by
    rw [fixTaskEnv_bare, fixTaskId_bare]
    exact hbare
  have hts5 : fixIdList 0 [jobj tfs] = ([(fixTaskId 0 (jobj tfs)).1], (fixTaskId 0 (jobj tfs)).2) := by
    simp [fixIdList]
  rw [hts5] at hrun
  have hts6 : fixEnvList [(fixTaskId 0 (jobj tfs)).1] =
      ([(fixTaskEnv (fixTaskId 0 (jobj tfs)).1).1], (fixTaskEnv (fixTaskId 0 (jobj tfs)).1).2) := by
    simp [fixEnvList]
  rw [hts6] at hrun
  rw [hrun]
  refine applyCommonFixes_idle _ ?_ ?_ ?_
  · rfl
  · show oTruthy (getField (setField (jobj fs1) "tasks"
      (jarr [(fixTaskEnv (fixTaskId 0 (jobj tfs)).1).1])) "namespace") = true
    rw [getField_setField_ne fs1 "tasks" "namespace" _ (by decide), ← hfs1]
    exact fixNamespacePass_ns fs
  · show tasksIdleT (setField (jobj fs1) "tasks"
      (jarr [(fixTaskEnv (fixTaskId 0 (jobj tfs)).1).1])) = true
    unfold tasksIdleT
    rw [getField_setField_self]
    simp [hbare6, hid6, henv6]

/-- After the first run wrapped a `tasks` mapping carrying a bare retry,
the second run produces exactly one fix — the retry rewrite. -/
theorem run2_after_wrap_bare (fs tfs : List (String × JVal))
    (hg : getField (jobj fs) "tasks" = some (jobj tfs))
    (hbare : bareRetryT (jobj tfs) = true) :
    (applyCommonFixes (applyCommonFixes (jobj fs)).1).2.length = 1 := by
  obtain ⟨fs1, hfs1⟩ := isObjV_jobj _ (fixNamespacePass_isObj fs)
  have hrun := applyCommonFixes_objTasks fs tfs hg
  rw [hfs1] at hrun
  have hobj5 : isObjV (fixTaskId 0 (jobj tfs)).1 = true := by
    rw [fixTaskId_isObj]
    rfl
  have hid6 : idOkT (fixTaskEnv (fixTaskId 0 (jobj tfs)).1).1 = true := by
    rw [fixTaskEnv_idOk]
    exact fixTaskId_idOk 0 _ rfl
  have henv6 : envOkT (fixTaskEnv (fixTaskId 0 (jobj tfs)).1).1 = true :=
    fixTaskEnv_envOk _ hobj5
  have hbare6 : bareRetryT (fixTaskEnv (fixTaskId 0 (jobj tfs)).1).1 = true := by
    rw [fixTaskEnv_bare, fixTaskId_bare]
    exact hbare
  have hts5 : fixIdList 0 [jobj tfs] = ([(fixTaskId 0 (jobj tfs)).1], (fixTaskId 0 (jobj tfs)).2) := by
    simp [fixIdList]
  rw [hts5] at hrun
  have hts6 : fixEnvList [(fixTaskId 0 (jobj tfs)).1] =
      ([(fixTaskEnv (fixTaskId 0 (jobj tfs)).1).1], (fixTaskEnv (fixTaskId 0 (jobj tfs)).1).2) := by
    simp [fixEnvList]
  rw [hts6] at hrun
  rw [hrun]
  show (applyCommonFixes (jobj (setFields fs1 "tasks"
    (jarr [(fixTaskEnv (fixTaskId 0 (jobj tfs)).1).1])))).2.length = 1
  have hg' : getField (jobj (setFields fs1 "tasks"
      (jarr [(fixTaskEnv (fixTaskId 0 (jobj tfs)).1).1]))) "tasks" =
      some (jarr [(fixTaskEnv (fixTaskId 0 (jobj tfs)).1).1]) :=
    getField_setField_self fs1 "tasks" _
  rw [applyCommonFixes_arr _ _ hg']
  have hns' : oTruthy (getField (jobj (setFields fs1 "tasks"
      (jarr [(fixTaskEnv (fixTaskId 0 (jobj tfs)).1).1]))) "namespace") = true := by
    have hfr := getField_setField_ne fs1 "tasks" "namespace"
      (jarr [(fixTaskEnv (fixTaskId 0 (jobj tfs)).1).1]) (by decide)
    rw [show getField (jobj (setFields fs1 "tasks"
        (jarr [(fixTaskEnv (fixTaskId 0 (jobj tfs)).1).1]))) "namespace" =
        getField (setField (jobj fs1) "tasks"
        (jarr [(fixTaskEnv (fixTaskId 0 (jobj tfs)).1).1])) "namespace" from rfl, hfr, ← hfs1]
    exact fixNamespacePass_ns fs
  have h1' := fixNamespacePass_of_ok _ hns'
  have hcount := fixRetryList_count [(fixTaskEnv (fixTaskId 0 (jobj tfs)).1).1]
  have hcnt1 : (fixRetryList [(fixTaskEnv (fixTaskId 0 (jobj tfs)).1).1]).2.length = 1 := by
    rw [hcount]
    simp [hbare6]
  have hid2 : (fixRetryList [(fixTaskEnv (fixTaskId 0 (jobj tfs)).1).1]).1.all idOkT = true :=
    fixRetryList_pres_idOk _ (by simp [hid6])
  have henv2 : (fixRetryList [(fixTaskEnv (fixTaskId 0 (jobj tfs)).1).1]).1.all envOkT = true :=
    fixRetryList_pres_envOk _ (by simp [henv6])
  have h5' := fixIdList_of_ok 0 _ hid2
  rw [h1', h5']
  have h6' := fixEnvList_of_ok _ henv2
  rw [h6']
  simp [hcnt1]

/-! ### Claim theorems -/

/-- Claim C1, evaluation at the failing input: the first create attempt
conflicts (HTTP 409), the retry under the fresh random id `"b"` succeeds;
the source submits the patched document under `"b"` but returns the
pre-retry id `"a"` as `flowId` and in `flowUrl`, contradicting the claim
(and the tool's own output schema, which documents `flowId` as the id
that was created). -/
theorem C1_conflict_retry_reports_stale_id :
    (createFlowPublish "id: a\ntasks: []" "a" "company.team" "b"
      ApiOutcome.conflict409 ApiOutcome.success).success = true ∧
    (createFlowPublish "id: a\ntasks: []" "a" "company.team" "b"
      ApiOutcome.conflict409 ApiOutcome.success).submitted.map Prod.snd = ["a", "b"] ∧
    (createFlowPublish "id: a\ntasks: []" "a" "company.team" "b"
      ApiOutcome.conflict409 ApiOutcome.success).flowId = some "a" ∧
    (createFlowPublish "id: a\ntasks: []" "a" "company.team" "b"
      ApiOutcome.conflict409 ApiOutcome.success).flowUrl =
      some "http://localhost:8080/ui/flows/company.team/a" ∧
    ("a" : String) ≠ "b" :=
  ⟨rfl, rfl, rfl, rfl, by decide⟩

/-- Claim C2 (counterexample): on Scenario A's input the validator marks
`isValid = true` (a repair was applied), not false as claimed, and the
diagnostics are not the three strings the claim lists. -/
theorem C2_scenarioA_counter :
    (validateAndFixKestraYaml (some docScenarioA)).isValid = true ∧
    (validateAndFixKestraYaml (some docScenarioA)).errors ≠
      ["id must not be empty", "namespace must not be empty",
       "tasks: at least one task required"] :=
  ⟨rfl, by decide⟩

/-- Claim C2 (amended): on `{id: "", namespace: "", tasks: []}` the
errors are the three zod diagnostics in the source's wording, the repair
adds the default namespace and leaves `tasks` the already-present empty
array without fabricating a task, and — because a repair was applied —
`isValid` is true. -/
theorem C2_scenarioA_amended :
    (validateAndFixKestraYaml (some docScenarioA)).errors =
      ["id: Flow ID must not be empty", "namespace: Namespace must not be empty",
       "tasks: At least one task is required"] ∧
    (validateAndFixKestraYaml (some docScenarioA)).fixesMade =
      ["Added missing namespace: " ++ sq "company.team"] ∧
    (validateAndFixKestraYaml (some docScenarioA)).fixedYaml =
      some (jobj [("id", jstr ""), ("namespace", jstr "company.team"), ("tasks", jarr [])]) ∧
    (validateAndFixKestraYaml (some docScenarioA)).isValid = true :=
  ⟨rfl, rfl, rfl, rfl⟩

/-- Claim C9 (counterexample): the repair mutates the parsed model in
place — after the call, `result.parsedYaml` is the repaired model, not
the model that parsing the input text yields. -/
theorem C9_parsed_model_mutated_counter :
    (validateAndFixKestraYaml (some docMissingNs)).parsedYaml ≠ some docMissingNs := by
  intro h
  have hx : ((validateAndFixKestraYaml (some docMissingNs)).parsedYaml).map
      (fun m => getField m "namespace") = some (some (jstr "company.team")) := rfl
  rw [h] at hx
  simp [docMissingNs, getField, getFields] at hx

/-- Claim C9 (amended): `applyCommonFixes` mutates the parsed object in
place, so the returned `parsedYaml` is always the repaired model; on a
document missing its namespace the returned model carries the default
namespace that the original parse lacks.  The input text itself is never
modified, so re-parsing it still yields the original model. -/
theorem C9_parsed_model_is_repaired_model :
    (∀ v : JVal, (validateAndFixKestraYaml (some v)).parsedYaml = some (applyCommonFixes v).1) ∧
    ((validateAndFixKestraYaml (some docMissingNs)).parsedYaml).map
      (fun m => getField m "namespace") = some (some (jstr "company.team")) ∧
    getField docMissingNs "namespace" = none :=
  ⟨fun _ => rfl, rfl, rfl⟩

/-- Claim C4 (counterexample): one repair run on a document whose `tasks`
is a single mapping with `retry: 2` wraps the mapping into a one-element
sequence but leaves the retry bare — the retry rule ran before the wrap
rule, so the claimed single-run rewrite does not happen. -/
theorem C4_wrap_retry_counter :
    getField (applyCommonFixes (docWrapRetry 2)).1 "tasks" =
      some (jarr [jobj [("id", jstr "t"), ("type", jstr "log"), ("retry", jnum 2)]]) ∧
    jnum 2 ≠ retryObj 2 :=
  ⟨rfl, by simp [retryObj]⟩

/-- Claim C4 (amended): the source order is namespace, retry rewrite,
missing tasks, wrap, task ids, env — the retry rule runs *before* the
wrap rule.  Consequently one run on a document whose `tasks` is a single
mapping carrying a numeric retry only wraps it (one fix), leaving the
retry bare; the rewrite to `{type: "constant", maxAttempt: n}` happens on
the next run. -/
theorem C4_retry_rule_precedes_wrap_rule : ∀ n : Int,
    (applyCommonFixes (docWrapRetry n)).2 = ["Converted tasks object to array format"] ∧
    getField (applyCommonFixes (docWrapRetry n)).1 "tasks" =
      some (jarr [jobj [("id", jstr "t"), ("type", jstr "log"), ("retry", jnum n)]]) ∧
    (applyCommonFixes (applyCommonFixes (docWrapRetry n)).1).2 =
      ["Fixed task " ++ sq "t" ++ ": Converted simple retry value to proper object format"] ∧
    getField (applyCommonFixes (applyCommonFixes (docWrapRetry n)).1).1 "tasks" =
      some (jarr [jobj [("id", jstr "t"), ("type", jstr "log"), ("retry", retryObj n)]]) :=
  fun _ => ⟨rfl, rfl, rfl, rfl⟩

/-- Claim C5: for every parseable input, `isValid` is true exactly when
the accumulated error list is empty or at least one repair was applied
(the repaired document re-parses, matching the source's successful
re-parse of its own serialization), even when structural errors remain
unrepaired. -/
theorem C5_isValid_iff_no_errors_or_repaired : ∀ v : JVal,
    (validateAndFixKestraYaml (some v)).isValid = true ↔
      ((validateAndFixKestraYaml (some v)).errors = [] ∨
       (validateAndFixKestraYaml (some v)).fixesMade ≠ []) := by
  intro v
  simp only [validateAndFixKestraYaml, Bool.or_eq_true, Bool.not_eq_eq_eq_not,
    Bool.not_true, List.isEmpty_eq_false, List.isEmpty_iff, Bool.not_eq_true']

/-- A string of the shape `b ++ "-" ++ t ++ "-" ++ r` is never empty. -/
theorem dash_suffix_ne_empty (b t r : String) : b ++ "-" ++ t ++ "-" ++ r ≠ "" := by
  intro h
  have hl := congrArg String.length h
  rw [String.length_append, String.length_append, String.length_append] at hl
  have h1 : ("-" : String).length = 1 := rfl
  have h0 : ("" : String).length = 0 := rfl
  rw [h1, h0] at hl
  omega

/-- Claim C8 (counterexample): an explicitly supplied `flowId` is *not*
used outright when it is the empty string — JavaScript truthiness treats
it as absent and the resolver falls through to the document id with the
uniqueness suffix. -/
theorem C8_empty_explicit_id_counter :
    resolveFlowId (some "") none (some "doc") "t1" "abc" = "doc-t1-abc" ∧
    ("doc-t1-abc" : String) ≠ "" :=
  ⟨rfl, by decide⟩

/-- Claim C8 (amended): identifier precedence with empty-string signals
treated as absent: a non-empty explicit `flowId` wins outright; else a
non-empty purpose hint is slugified and suffixed with the uniqueness
token; else the document id is suffixed; else the literal root `"flow"`
is suffixed — and the resulting id is never the empty string. -/
theorem C8_resolver_precedence :
    (∀ (s : String) (p d : Option String) (t r : String), s ≠ "" →
       resolveFlowId (some s) p d t r = s) ∧
    (∀ (fid : Option String) (ps : String) (d : Option String) (t r : String),
       sTruthy fid = false → ps ≠ "" →
       resolveFlowId fid (some ps) d t r = slugify ps ++ "-" ++ t ++ "-" ++ r) ∧
    (∀ (fid p : Option String) (ds t r : String),
       sTruthy fid = false → sTruthy p = false → ds ≠ "" →
       resolveFlowId fid p (some ds) t r = ds ++ "-" ++ t ++ "-" ++ r) ∧
    (∀ (fid p d : Option String) (t r : String),
       sTruthy fid = false → sTruthy p = false → sTruthy d = false →
       resolveFlowId fid p d t r = "flow" ++ "-" ++ t ++ "-" ++ r) ∧
    (∀ (fid p d : Option String) (t r : String), resolveFlowId fid p d t r ≠ "") := by
  have hfold : ∀ (p d : Option String) (t r : String),
      resolveFlowId none p d t r = resolveFlowId.resolveGeneratedId p d t r := fun _ _ _ _ => rfl
  have hfold0 : ∀ (p d : Option String) (t r : String),
      resolveFlowId (some "") p d t r = resolveFlowId.resolveGeneratedId p d t r := by
    intro p d t r
    simp [resolveFlowId]
  refine ⟨?_, ?_, ?_, ?_, ?_⟩
  · intro s p d t r hs
    simp [resolveFlowId, hs]
  · intro fid ps d t r hfid hps
    have hps' : sTruthy (some ps) = true := by simp [sTruthy, hps]
    cases fid with
    | none => rw [hfold]; simp [resolveFlowId.resolveGeneratedId, hps']
    | some s =>
      simp [sTruthy] at hfid
      subst hfid
      rw [hfold0]
      simp [resolveFlowId.resolveGeneratedId, hps']
  · intro fid p ds t r hfid hp hds
    have hds' : sTruthy (some ds) = true := by simp [sTruthy, hds]
    cases fid with
    | none => rw [hfold]; simp [resolveFlowId.resolveGeneratedId, hp, hds']
    | some s =>
      simp [sTruthy] at hfid
      subst hfid
      rw [hfold0]
      simp [resolveFlowId.resolveGeneratedId, hp, hds']
  · intro fid p d t r hfid hp hd
    cases fid with
    | none => rw [hfold]; simp [resolveFlowId.resolveGeneratedId, hp, hd]
    | some s =>
      simp [sTruthy] at hfid
      subst hfid
      rw [hfold0]
      simp [resolveFlowId.resolveGeneratedId, hp, hd]
  · intro fid p d t r
    cases fid with
    | none =>
      rw [hfold]
      exact dash_suffix_ne_empty _ t r
    | some s =>
      by_cases hs : s = ""
      · subst hs
        rw [hfold0]
        exact dash_suffix_ne_empty _ t r
      · have hexp : resolveFlowId (some s) p d t r = s := by
          simp [resolveFlowId, hs]
        rw [hexp]
        exact hs

/-- Witness for C8: the precedence theorem applied at concrete inputs. -/
theorem C8_resolver_precedence_witness :
    resolveFlowId (some "my-id") none (some "doc") "t" "r" = "my-id" ∧
    resolveFlowId none (some "Send Email") none "t" "r" =
      slugify "Send Email" ++ "-" ++ "t" ++ "-" ++ "r" ∧
    resolveFlowId none none (some "doc") "t" "r" = "doc" ++ "-" ++ "t" ++ "-" ++ "r" ∧
    resolveFlowId none none none "t" "r" = "flow" ++ "-" ++ "t" ++ "-" ++ "r" ∧
    resolveFlowId none none none "t" "r" ≠ "" :=
  ⟨C8_resolver_precedence.1 "my-id" none (some "doc") "t" "r" (by decide),
   C8_resolver_precedence.2.1 none "Send Email" none "t" "r" rfl (by decide),
   C8_resolver_precedence.2.2.1 none none "doc" "t" "r" rfl rfl (by decide),
   C8_resolver_precedence.2.2.2.1 none none none "t" "r" rfl rfl rfl,
   C8_resolver_precedence.2.2.2.2 none none none "t" "r"⟩

/-- Claim C6: the publisher makes at most two create calls; the second is
made exactly when the first fails with the 409 conflict signal, and then
submits the document with the fresh id patched in; a non-conflict failure
of the first call, and any failure of the retry, is returned as a failure
result with no further call. -/
theorem C6_single_conflict_retry :
    ∀ (y fid ns rid : String) (o1 o2 : ApiOutcome),
      (createFlowPublish y fid ns rid o1 o2).submitted.length ≤ 2 ∧
      ((createFlowPublish y fid ns rid o1 o2).submitted.length = 2 ↔ o1 = ApiOutcome.conflict409) ∧
      (o1 = ApiOutcome.conflict409 →
        (createFlowPublish y fid ns rid o1 o2).submitted =
          [(y, fid), (replaceIdLine y rid, rid)]) ∧
      (o1 ≠ ApiOutcome.conflict409 →
        (createFlowPublish y fid ns rid o1 o2).submitted = [(y, fid)]) ∧
      (∀ m, o1 = ApiOutcome.failure m →
        (createFlowPublish y fid ns rid o1 o2).success = false ∧
        (createFlowPublish y fid ns rid o1 o2).status = "API_ERROR") ∧
      (o1 = ApiOutcome.conflict409 → o2 ≠ ApiOutcome.success →
        (createFlowPublish y fid ns rid o1 o2).success = false ∧
        (createFlowPublish y fid ns rid o1 o2).status = "API_ERROR") := by
  intro y fid ns rid o1 o2
  cases o1 <;> cases o2 <;>
    simp [createFlowPublish, attemptCreateFlow]

/-- Witness for C6: the retry discipline applied at a concrete run (409
then success). -/
theorem C6_single_conflict_retry_witness :
    (createFlowPublish "id: x" "x" "ns" "y2k" ApiOutcome.conflict409
      ApiOutcome.success).submitted = [("id: x", "x"), (replaceIdLine "id: x" "y2k", "y2k")] ∧
    (createFlowPublish "id: x" "x" "ns" "y2k" (ApiOutcome.failure "boom")
      ApiOutcome.success).success = false :=
  ⟨(C6_single_conflict_retry "id: x" "x" "ns" "y2k" ApiOutcome.conflict409
      ApiOutcome.success).2.2.1 rfl,
   ((C6_single_conflict_retry "id: x" "x" "ns" "y2k" (ApiOutcome.failure "boom")
      ApiOutcome.success).2.2.2.2.1 "boom" rfl).1⟩

/-- Claim C10: document source precedence of the two-store variant — the
RuntimeContext value wins when truthy; otherwise a truthy
KestraFlowContext value is used and copied into the RuntimeContext (when
one is available); the direct `flowYaml` parameter is used only when both
stores are empty, and a used direct input is copied into both stores. -/
theorem C10_two_store_precedence :
    ∀ (st : CtxState) (input : Option String),
      (st.rcAvailable = true → sTruthy st.rcFlowYaml = true →
        selectYamlSource st input = { yamlContent := st.rcFlowYaml, state := st }) ∧
      ((st.rcAvailable = true → sTruthy st.rcFlowYaml = false) → sTruthy st.kfcFlowYaml = true →
        (selectYamlSource st input).yamlContent = st.kfcFlowYaml ∧
        (selectYamlSource st input).state.kfcFlowYaml = st.kfcFlowYaml ∧
        (st.rcAvailable = true →
          (selectYamlSource st input).state.rcFlowYaml = st.kfcFlowYaml)) ∧
      ((st.rcAvailable = true → sTruthy st.rcFlowYaml = false) → sTruthy st.kfcFlowYaml = false →
        sTruthy input = true →
        (selectYamlSource st input).yamlContent = input ∧
        (selectYamlSource st input).state.kfcFlowYaml = input ∧
        (st.rcAvailable = true → (selectYamlSource st input).state.rcFlowYaml = input)) := by
  have hn : sTruthy none = false := rfl
  intro st input
  obtain ⟨rc, rt, kf⟩ := st
  refine ⟨?_, ?_, ?_⟩
  · intro hrc hrt
    cases rc <;> simp_all [selectYamlSource, hn]
  · intro h1 h2
    cases rc <;> simp_all [selectYamlSource, hn]
  · intro h1 h2 h3
    cases rc <;> simp_all [selectYamlSource, hn]

/-- Witness for C10: the precedence applied at concrete store states. -/
theorem C10_two_store_precedence_witness :
    selectYamlSource { rcAvailable := true, rcFlowYaml := some "RT", kfcFlowYaml := some "KF" }
      (some "IN") =
      { yamlContent := some "RT",
        state := { rcAvailable := true, rcFlowYaml := some "RT", kfcFlowYaml := some "KF" } } ∧
    (selectYamlSource { rcAvailable := true, rcFlowYaml := none, kfcFlowYaml := some "KF" }
      (some "IN")).yamlContent = some "KF" ∧
    (selectYamlSource { rcAvailable := true, rcFlowYaml := none, kfcFlowYaml := none }
      (some "IN")).yamlContent = some "IN" :=
  ⟨(C10_two_store_precedence
      { rcAvailable := true, rcFlowYaml := some "RT", kfcFlowYaml := some "KF" }
      (some "IN")).1 rfl rfl,
   ((C10_two_store_precedence
      { rcAvailable := true, rcFlowYaml := none, kfcFlowYaml := some "KF" }
      (some "IN")).2.1 (fun _ => rfl) rfl).1,
   ((C10_two_store_precedence
      { rcAvailable := true, rcFlowYaml := none, kfcFlowYaml := none }
      (some "IN")).2.2 (fun _ => rfl) rfl rfl).1⟩

/-- Claim C3 (counterexample): repair is not idempotent precisely in the
case the claim singles out — on a document whose `tasks` was a single
mapping with a bare numeric retry, the second repair run reports one
additional fix (the retry rewrite that the first run's rule order
missed). -/
theorem C3_second_run_fixes_counter :
    (applyCommonFixes (applyCommonFixes docTasksObjRetry).1).2 =
      ["Fixed task " ++ sq "t" ++ ": Converted simple retry value to proper object format"] ∧
    (applyCommonFixes (applyCommonFixes docTasksObjRetry).1).2 ≠ [] :=
  ⟨rfl, by decide⟩

/-- Claim C3 (amended): on the class of documents the repair handles
(mappings whose `tasks` sequence holds mappings), a second repair run is
a fixpoint with zero additional fixes — except when the original `tasks`
was a single non-sequence mapping: then the second run reports exactly
one additional fix when that mapping carried a bare number/string retry
(the rewrite the first run's rule order missed), and zero otherwise. -/
theorem C3_repair_idempotent_except_wrapped_retry :
    ∀ v : JVal, repairSafeT v = true →
      ((match getField v "tasks" with
        | some (jobj _) => false
        | _ => true) = true →
        applyCommonFixes (applyCommonFixes v).1 = ((applyCommonFixes v).1, [])) ∧
      (∀ tfs, getField v "tasks" = some (jobj tfs) →
        (applyCommonFixes (applyCommonFixes v).1).2.length =
          (if bareRetryT (jobj tfs) then 1 else 0)) ∧
      (∀ tfs, getField v "tasks" = some (jobj tfs) → bareRetryT (jobj tfs) = false →
        applyCommonFixes (applyCommonFixes v).1 = ((applyCommonFixes v).1, [])) := by
  intro v hsafe
  rw [repairSafeT, Bool.and_eq_true] at hsafe
  obtain ⟨fs, rfl⟩ := isObjV_jobj v hsafe.1
  have hsafe2 := hsafe.2
  refine ⟨?_, ?_, ?_⟩
  · intro hcond
    cases hg : getField (jobj fs) "tasks" with
    | none => exact run2_after_falsy fs (by rw [hg]; rfl)
    | some w =>
      cases w with
      | jnull => exact run2_after_falsy fs (by rw [hg]; rfl)
      | jbool b =>
        cases b with
        | false => exact run2_after_falsy fs (by rw [hg]; rfl)
        | true => exact run2_after_prim fs _ hg rfl rfl rfl
      | jnum n =>
        by_cases hn : n = 0
        · subst hn
          exact run2_after_falsy fs (by rw [hg]; rfl)
        · exact run2_after_prim fs _ hg (by simp [jTruthy, hn]) rfl rfl
      | jstr s =>
        by_cases hs : s = ""
        · subst hs
          exact run2_after_falsy fs (by rw [hg]; rfl)
        · exact run2_after_prim fs _ hg (by simp [jTruthy, hs]) rfl rfl
      | jarr ts =>
        have hts : ts.all isObjV = true := by
          rw [hg] at hsafe2
          exact hsafe2
        exact run2_after_arr fs ts hg hts
      | jobj tfs =>
        rw [hg] at hcond
        simp at hcond
  · intro tfs htfs
    by_cases hb : bareRetryT (jobj tfs) = true
    · rw [if_pos hb]
      exact run2_after_wrap_bare fs tfs htfs hb
    · have hb' : bareRetryT (jobj tfs) = false := eq_false_of_ne_true hb
      rw [if_neg hb]
      rw [run2_after_wrap_not_bare fs tfs htfs hb']
      rfl
  · intro tfs htfs hb
    exact run2_after_wrap_not_bare fs tfs htfs hb

/-- Witness for C3: the amended idempotence applied at a normalized
sequence document and at the wrapped-bare-retry document. -/
theorem C3_repair_idempotent_witness :
    applyCommonFixes (applyCommonFixes docSeqOk).1 = ((applyCommonFixes docSeqOk).1, []) ∧
    (applyCommonFixes (applyCommonFixes docTasksObjRetry).1).2.length = 1 :=
  ⟨(C3_repair_idempotent_except_wrapped_retry docSeqOk rfl).1 rfl,
   (C3_repair_idempotent_except_wrapped_retry docTasksObjRetry rfl).2.1
     [("id", jstr "t"), ("type", jstr "log"), ("retry", jnum 3)] rfl⟩

/-- Claim C7: a bare numeric-string retry parsing to `n` is rewritten to
`{type: "constant", maxAttempt: n}` with one fix entry; an unparsable
string yields `maxAttempt = 1`; a bare number `n` yields `maxAttempt = n`;
the retry loop records exactly one fix per bare-retry task; and on
Scenario B's document the repaired retry is `{type: "constant",
maxAttempt: 3}` with `fixesMade.length = 1`. -/
theorem C7_bare_retry_rewrite :
    (∀ (t : JVal) (s : String) (n : Int),
       getField t "retry" = some (jstr s) → parseIntJS s = some n →
       getField (fixTaskRetry t).1 "retry" = some (retryObj n) ∧
       (fixTaskRetry t).2.length = 1) ∧
    (∀ (t : JVal) (s : String),
       getField t "retry" = some (jstr s) → parseIntJS s = none →
       getField (fixTaskRetry t).1 "retry" = some (retryObj 1) ∧
       (fixTaskRetry t).2.length = 1) ∧
    (∀ (t : JVal) (n : Int),
       getField t "retry" = some (jnum n) →
       getField (fixTaskRetry t).1 "retry" = some (retryObj n) ∧
       (fixTaskRetry t).2.length = 1) ∧
    (∀ ts : List JVal,
       (fixRetryList ts).2.length = ts.countP (fun t => bareRetryT t)) ∧
    ((validateAndFixKestraYaml (some docScenarioB)).fixedYaml =
       some (jobj [("id", jstr "f"), ("namespace", jstr "ns"),
         ("tasks", jarr [jobj [("id", jstr "t1"), ("type", jstr "log"),
           ("retry", retryObj 3)]])]) ∧
     (validateAndFixKestraYaml (some docScenarioB)).fixesMade.length = 1 ∧
     (validateAndFixKestraYaml (some docScenarioB)).errors = []) := by
  refine ⟨?_, ?_, ?_, fixRetryList_count, rfl, rfl, rfl⟩
  · intro t s n hret hp
    obtain ⟨fs, rfl⟩ := getField_some_jobj t "retry" _ hret
    have h1 : (fixTaskRetry (jobj fs)).1 =
        setField (jobj fs) "retry"
          (retryObj (match parseIntJS s with
                     | some k => k
                     | none => 1)) := by
      unfold fixTaskRetry
      rw [hret]
    constructor
    · rw [h1, hp]
      exact getField_setField_self fs "retry" _
    · show (fixTaskRetry (jobj fs)).2.length = 1
      unfold fixTaskRetry
      rw [hret]
      rfl
  · intro t s hret hp
    obtain ⟨fs, rfl⟩ := getField_some_jobj t "retry" _ hret
    have h1 : (fixTaskRetry (jobj fs)).1 =
        setField (jobj fs) "retry"
          (retryObj (match parseIntJS s with
                     | some k => k
                     | none => 1)) := by
      unfold fixTaskRetry
      rw [hret]
    constructor
    · rw [h1, hp]
      exact getField_setField_self fs "retry" _
    · show (fixTaskRetry (jobj fs)).2.length = 1
      unfold fixTaskRetry
      rw [hret]
      rfl
  · intro t n hret
    obtain ⟨fs, rfl⟩ := getField_some_jobj t "retry" _ hret
    have h1 : (fixTaskRetry (jobj fs)).1 = setField (jobj fs) "retry" (retryObj n) := by
      unfold fixTaskRetry
      rw [hret]
    constructor
    · rw [h1]
      exact getField_setField_self fs "retry" _
    · show (fixTaskRetry (jobj fs)).2.length = 1
      unfold fixTaskRetry
      rw [hret]
      rfl

/-- Witness for C7: the retry rewrite applied at concrete tasks. -/
theorem C7_bare_retry_rewrite_witness :
    getField (fixTaskRetry (jobj [("id", jstr "w1"), ("retry", jstr "3")])).1 "retry" =
      some (retryObj 3) ∧
    getField (fixTaskRetry (jobj [("id", jstr "w2"), ("retry", jstr "abc")])).1 "retry" =
      some (retryObj 1) ∧
    getField (fixTaskRetry (jobj [("id", jstr "w3"), ("retry", jnum 7)])).1 "retry" =
      some (retryObj 7) :=
  ⟨(C7_bare_retry_rewrite.1 (jobj [("id", jstr "w1"), ("retry", jstr "3")]) "3" 3
      rfl (by decide)).1,
   (C7_bare_retry_rewrite.2.1 (jobj [("id", jstr "w2"), ("retry", jstr "abc")]) "abc"
      rfl (by decide)).1,
   (C7_bare_retry_rewrite.2.2.1 (jobj [("id", jstr "w3"), ("retry", jnum 7)]) 7 rfl).1⟩

end Kestra
